import Mathlib

/-!
# btrace: the capture-and-emit pipeline of `src/bpf/btrace.c`

A shallow embedding of the BPF program `btrace.c`: the session correlator
(`get_tracee_caller_fp`, `gen_session_id`), the filter gate (`filter`), the capture
orchestrator (`emit_btrace_event`) and the probe entry points (`fexit_fn`, `fentry_fn`,
`handle_tp_event`, `tp_btf_fn`).

Modelling conventions.

* Machine integers are naturals reduced modulo `2 ^ 32` or `2 ^ 64` where the C code
  truncates; `size_t` is 64 bits wide on the BPF target.
* The globals defined in `btrace.c` itself (`ready`, `btrace_evt_buff`, `btrace_stacks`,
  `btrace_events`) form `Core`.  The per-CPU scratch arrays that the included headers
  define (`btrace_lbr_buff`, `btrace_str_buff`, `btrace_pkt_buff`, `btrace_arg_buff`)
  form `Scratch`.
* Kernel helpers (`bpf_*`) are not part of the repository: their outcomes for one probe
  invocation are the fields of `Kernel`.
* The routines of the included headers (`filter_fnarg`, `filter_pkt`, `output_*`) are not
  in the source tree: they are the fields of `Ext`, arbitrary functions over the scratch
  state they can reach.  They are defined before the globals of `btrace.c` are declared,
  so they reach `Core` only through a pointer handed to them (the event slot).
* Every helper call and every external call is appended to `State.trace`, in program
  order, so that ordering properties can be stated.
-/

namespace Btrace

/-- The value `BPF_OK` returned by every path of the orchestrator. -/
def BPF_OK : Int := 0

/-- The constant `MAX_STACK_DEPTH` of the stack table. -/
def MAX_STACK_DEPTH : Nat := 50

/-- Number of values of a `__u32`. -/
def U32 : Nat := 2 ^ 32

/-- Number of values of a `__u64` (and of `size_t`). -/
def U64 : Nat := 2 ^ 64

/-- The fields of `struct event` that `btrace.c` accesses. `fn_data` is the
variable-length argument tail, kept as raw content. -/
structure Event where
  session_id : Nat
  func_ip : Nat
  func_ret : Nat
  cpu : Nat
  pid : Nat
  comm : List Nat
  func_stack_id : Int
  fn_data : List Nat
  deriving DecidableEq, Repr

/-- The fields of `struct btrace_lbr_data` that `btrace.c` accesses. -/
structure LbrData where
  entries : List Nat
  nr_bytes : Int
  deriving DecidableEq, Repr

/-- The per-CPU scratch arrays defined by the included headers, and `aux`, whatever
further state (maps, buffers) those headers own. A string, packet or argument slot is
kept as raw content. -/
structure Scratch where
  lbr : List LbrData
  str : List (List Nat)
  pkt : List (List Nat)
  arg : List (List Nat)
  aux : List Nat
  deriving DecidableEq, Repr

/-- The globals defined in `btrace.c`: `ready`, `btrace_evt_buff`, the stack table
`btrace_stacks` and the ring buffer `btrace_events` (each submitted record with the size
it was submitted with). -/
structure Core where
  ready : Nat
  evt : List Event
  btrace_stacks : List (List Nat)
  btrace_events : List (Event × Nat)
  deriving DecidableEq, Repr

/-- The `void *` handed to the filters and fillers: the raw context, or the explicit
argument vector (`none` is `NULL`). -/
inductive Ptr where
  | ctx (c : Nat)
  | args (a : Option (List Nat))
  deriving DecidableEq, Repr

/-- One entry of the call log: a kernel helper call or a call of a header routine,
with the arguments that matter. -/
inductive Call where
  | get_smp_processor_id
  | get_branch_snapshot (cpu : Nat)
  | get_current_pid_tgid
  | probe_read_kernel (addr : Nat)
  | get_prandom_u32
  | filter_fnarg (p : Ptr)
  | filter_pkt (p : Ptr) (session_id : Nat)
  | get_func_ret (c : Nat)
  | get_func_ip (c : Nat)
  | get_current_comm
  | get_stackid (c : Nat)
  | output_lbr_data (cpu : Nat) (session_id : Nat)
  | output_fn_data_vol (cpu : Nat) (a : Option (List Nat))
  | output_fn_data (cpu : Nat) (c : Nat) (retval : Nat)
  | output_pkt_tuple (p : Ptr) (cpu : Nat) (session_id : Nat)
  | output_arg_data (p : Ptr) (cpu : Nat) (session_id : Nat)
  | ringbuf_output (rec : Event) (size : Nat)
  deriving DecidableEq, Repr

/-- The machine state seen by one probe invocation, with the call log. -/
structure State where
  core : Core
  scr : Scratch
  trace : List Call
  deriving DecidableEq, Repr

/-- The fields of `cfg` that `btrace.c` reads (read-only configuration). -/
structure Config where
  pid : Nat
  output_lbr : Bool
  output_stack : Bool
  output_pkt : Bool
  output_arg : Bool
  nr_fn_args : Nat
  deriving DecidableEq, Repr

/-- The layout constants of the missing `btrace.h`:
`offsetof(struct event, fn_data)`, `sizeof(struct btrace_fn_arg_data)` and
`MAX_FN_ARGS`. -/
structure Layout where
  fn_data_offset : Nat
  fn_arg_data_size : Nat
  MAX_FN_ARGS : Nat
  deriving DecidableEq, Repr

/-- The layout describes objects that exist: the header followed by `MAX_FN_ARGS`
argument slots has a size that `size_t` can hold. -/
def Layout.fits (L : Layout) : Prop :=
  L.fn_data_offset + L.fn_arg_data_size * L.MAX_FN_ARGS < U64

instance (L : Layout) : Decidable L.fits := by
  unfold Layout.fits; infer_instance

/-- Outcomes of the kernel helpers for one probe invocation. -/
structure Kernel where
  /-- Result of `bpf_get_smp_processor_id`. -/
  smp_processor_id : Nat
  /-- The helper `bpf_get_branch_snapshot`: from the old content of the entries buffer,
  its new content and the return value. -/
  branch_snapshot : List Nat → List Nat × Int
  /-- Result of `bpf_get_current_pid_tgid`. -/
  current_pid_tgid : Nat
  /-- The frame pointer register `r10` of the running program. -/
  r10 : Nat
  /-- The helper `bpf_probe_read_kernel` for an 8-byte read: the value at an address,
  `none` when the read faults. -/
  probe_read_kernel : Nat → Option Nat
  /-- Result of `bpf_get_prandom_u32`. -/
  prandom_u32 : Nat
  /-- The helper `bpf_get_func_ret`: the value it stores, `none` when it fails and stores
  nothing. -/
  func_ret : Nat → Option Nat
  /-- Result of `bpf_get_func_ip`. -/
  func_ip : Nat → Nat
  /-- The name written by `bpf_get_current_comm`. -/
  current_comm : List Nat
  /-- The helper `bpf_get_stackid`: the id it returns and the stack table afterwards. -/
  stackid : List (List Nat) → Nat → Int × List (List Nat)
  /-- Whether the ring buffer has room for a record of the given size. -/
  ringbuf_room : List (Event × Nat) → Nat → Bool

/-- The routines of the included headers. A slot pointer (`lbr`, `str`, `pkt`, `arg`) is
passed as its index; the event slot is passed by value and handed back. -/
structure Ext where
  filter_fnarg : Scratch → Ptr → Bool × Scratch
  filter_pkt : Scratch → Ptr → Nat → Bool × Scratch
  output_lbr_data : Scratch → Nat → Nat → Scratch
  output_fn_data_vol : Scratch → Event → Nat → Option (List Nat) → Event × Scratch
  output_fn_data : Scratch → Event → Nat → Nat → Nat → Event × Scratch
  output_pkt_tuple : Scratch → Ptr → Nat → Nat → Scratch
  output_arg_data : Scratch → Ptr → Nat → Nat → Scratch

/-- Everything that is fixed while the probes run: `cfg`, the constant `FUNC_IP`, the
record layout and the header routines. -/
structure Env where
  cfg : Config
  FUNC_IP : Nat
  lay : Layout
  ext : Ext

/-- Append one call to the call log. -/
def State.log (s : State) (c : Call) : State :=
  { s with trace := s.trace ++ [c] }

/-- Replace the scratch state (the effect of a header routine). -/
def State.setScr (s : State) (scr : Scratch) : State :=
  { s with scr := scr }

/-- The event slot of `cpu` (`*evt`). -/
def State.evtAt (s : State) (cpu : Nat) : Event :=
  s.core.evt.getD cpu ⟨0, 0, 0, 0, 0, [], 0, []⟩

/-- A store through `evt`: apply `f` to the event slot of `cpu`. -/
def State.updEvt (s : State) (cpu : Nat) (f : Event → Event) : State :=
  { s with core := { s.core with evt := s.core.evt.set cpu (f (s.evtAt cpu)) } }

/-- All five per-CPU arrays have a slot at index `cpu`. -/
def State.inBounds (s : State) (cpu : Nat) : Prop :=
  cpu < s.scr.lbr.length ∧ cpu < s.scr.pkt.length ∧ cpu < s.scr.str.length ∧
  cpu < s.scr.arg.length ∧ cpu < s.core.evt.length

instance (s : State) (cpu : Nat) : Decidable (s.inBounds cpu) := by
  unfold State.inBounds; infer_instance

/-- An 8-byte `bpf_probe_read_kernel` into a `u64`: the value read, or zero, which is
what the helper leaves in the destination when the read faults. -/
def probe_read (K : Kernel) (addr : Nat) : Nat :=
  match K.probe_read_kernel addr with
  | some v => v % U64
  | none => 0

/-- The function `get_tracee_caller_fp`: dereference the frame pointer twice. -/
def get_tracee_caller_fp (K : Kernel) (s : State) : Nat × State :=
  let fp := K.r10 % U64
  let fp_caller := probe_read K fp
  let s := s.log (.probe_read_kernel fp)
  let fp_caller2 := probe_read K fp_caller
  let s := s.log (.probe_read_kernel fp_caller)
  (fp_caller2, s)

/-- The return expression of `gen_session_id`:
`((__u64) rnd) << 32 | (fp & 0xFFFFFFFF)`, with `rnd` a `__u32`. -/
def session_id_of (fp rnd : Nat) : Nat :=
  ((((rnd % U32) <<< 32) % U64) ||| (fp &&& 0xFFFFFFFF)) % U64

/-- The function `gen_session_id`. -/
def gen_session_id (K : Kernel) (s : State) : Nat × State :=
  let r := get_tracee_caller_fp K s
  let fp := r.1
  let rnd := K.prandom_u32 % U32
  let s := r.2.log .get_prandom_u32
  (session_id_of fp rnd, s)

/-- The function `filter`: `filter_fnarg(ctx) && filter_pkt(ctx, session_id)`, the
second operand evaluated only when the first is true. -/
def filter (E : Env) (s : State) (p : Ptr) (session_id : Nat) : Bool × State :=
  let r1 := E.ext.filter_fnarg s.scr p
  let s := (s.setScr r1.2).log (.filter_fnarg p)
  if r1.1 then
    let r2 := E.ext.filter_pkt s.scr p session_id
    (r2.1, (s.setScr r2.2).log (.filter_pkt p session_id))
  else
    (false, s)

/-- The size computation of lines 127-128, in `size_t` arithmetic. -/
def event_sz (E : Env) : Nat :=
  (E.lay.fn_data_offset % U64 +
    (E.lay.fn_arg_data_size % U64 * (E.cfg.nr_fn_args % U64)) % U64) % U64

/-- The call `bpf_ringbuf_output(&btrace_events, evt, event_sz, 0)`: the record is
appended when the ring buffer has room and dropped otherwise; the result is ignored. -/
def ringbuf_output (K : Kernel) (s : State) (cpu : Nat) (sz : Nat) : State :=
  let rec_ := s.evtAt cpu
  let s := s.log (.ringbuf_output rec_ sz)
  if K.ringbuf_room s.core.btrace_events sz then
    { s with core := { s.core with btrace_events := s.core.btrace_events ++ [(rec_, sz)] } }
  else
    s

/-- The value of the local `retval` after line 101: initialised to zero, overwritten by
`bpf_get_func_ret` on the context-shaped path when the helper succeeds. -/
def retval_of (K : Kernel) (ctx : Nat) (use_args : Bool) : Nat :=
  if use_args then 0 else
    match K.func_ret ctx with
    | some v => v % U64
    | none => 0

/-- Lines 99-108 of `emit_btrace_event`: the header fields of the event slot. -/
def fill_header (E : Env) (K : Kernel) (s : State) (ctx : Nat) (use_args : Bool)
    (cpu pid session_id : Nat) : State :=
  let s := s.updEvt cpu (fun e => { e with session_id := session_id })
  let s := if use_args then s else
    (s.log (.get_func_ret ctx)).updEvt cpu
      (fun e => { e with func_ret := retval_of K ctx use_args })
  let s := if E.FUNC_IP ≠ 0 then
      s.updEvt cpu (fun e => { e with func_ip := E.FUNC_IP })
    else
      (s.log (.get_func_ip ctx)).updEvt cpu (fun e => { e with func_ip := K.func_ip ctx % U64 })
  let s := s.updEvt cpu (fun e => { e with cpu := cpu })
  let s := s.updEvt cpu (fun e => { e with pid := pid })
  let s := (s.log .get_current_comm).updEvt cpu (fun e => { e with comm := K.current_comm })
  s.updEvt cpu (fun e => { e with func_stack_id := -1 })

/-- Lines 109-110: the stack id, when stack capture is enabled. -/
def fill_stack (E : Env) (K : Kernel) (s : State) (ctx : Nat) (cpu : Nat) : State :=
  if E.cfg.output_stack then
    let r := K.stackid s.core.btrace_stacks ctx
    let s := s.log (.get_stackid ctx)
    let s := { s with core := { s.core with btrace_stacks := r.2 } }
    s.updEvt cpu (fun e => { e with func_stack_id := r.1 })
  else s

/-- Lines 111-112: `output_lbr_data(lbr, session_id)`, when enabled. -/
def fill_lbr (E : Env) (s : State) (cpu session_id : Nat) : State :=
  if E.cfg.output_lbr then
    (s.setScr (E.ext.output_lbr_data s.scr cpu session_id)).log
      (.output_lbr_data cpu session_id)
  else s

/-- Lines 115-116 and 121-122: `output_pkt_tuple`, when enabled. -/
def fill_pkt (E : Env) (s : State) (p : Ptr) (cpu session_id : Nat) : State :=
  if E.cfg.output_pkt then
    (s.setScr (E.ext.output_pkt_tuple s.scr p cpu session_id)).log
      (.output_pkt_tuple p cpu session_id)
  else s

/-- Lines 117-118 and 123-124: `output_arg_data`, when enabled. -/
def fill_arg (E : Env) (s : State) (p : Ptr) (cpu session_id : Nat) : State :=
  if E.cfg.output_arg then
    (s.setScr (E.ext.output_arg_data s.scr p cpu session_id)).log
      (.output_arg_data p cpu session_id)
  else s

/-- Lines 114 and 120: `output_fn_data_vol(evt, str, args)` on the argument-vector path,
`output_fn_data(evt, ctx, (void *) retval, str)` on the context path. -/
def fill_fn_data (E : Env) (K : Kernel) (s : State) (ctx : Nat)
    (args : Option (List Nat)) (use_args : Bool) (cpu : Nat) : State :=
  if use_args then
    let r := E.ext.output_fn_data_vol s.scr (s.evtAt cpu) cpu args
    ((s.setScr r.2).updEvt cpu (fun _ => r.1)).log (.output_fn_data_vol cpu args)
  else
    let r := E.ext.output_fn_data s.scr (s.evtAt cpu) ctx (retval_of K ctx use_args) cpu
    ((s.setScr r.2).updEvt cpu (fun _ => r.1)).log
      (.output_fn_data cpu ctx (retval_of K ctx use_args))

/-- Lines 99-125 of `emit_btrace_event`: fill the event slot of `cpu` from the enabled
capture sources, in program order. -/
def fill_event (E : Env) (K : Kernel) (s : State) (ctx : Nat)
    (args : Option (List Nat)) (use_args : Bool) (cpu pid session_id : Nat) : State :=
  let s := fill_header E K s ctx use_args cpu pid session_id
  let s := fill_stack E K s ctx cpu
  let s := fill_lbr E s cpu session_id
  let s := fill_fn_data E K s ctx args use_args cpu
  let p : Ptr := if use_args then .args args else .ctx ctx
  let s := fill_pkt E s p cpu session_id
  fill_arg E s p cpu session_id

/-- Lines 84-85: the branch snapshot into the `lbr` slot of `cpu`, when enabled. -/
def snapshot_lbr (E : Env) (K : Kernel) (s : State) (cpu : Nat) : State :=
  if E.cfg.output_lbr then
    let old := s.scr.lbr.getD cpu ⟨[], 0⟩
    let r := K.branch_snapshot old.entries
    let s := s.log (.get_branch_snapshot cpu)
    s.setScr { s.scr with lbr := s.scr.lbr.set cpu ⟨r.1, r.2⟩ }
  else s

/-- Line 77: the processor id, a `__u32`. -/
def cur_cpu (K : Kernel) : Nat := K.smp_processor_id % U32

/-- Line 91: `bpf_get_current_pid_tgid() >> 32`, a `__u32`. -/
def cur_pid (K : Kernel) : Nat := (K.current_pid_tgid % U64 / U32) % U32

/-- The function `emit_btrace_event`. The result is `none` when the processor id is
outside one of the per-CPU arrays (the slot addresses of lines 78-82 do not exist). -/
def emit_btrace_event (E : Env) (K : Kernel) (s : State) (ctx : Nat)
    (args : Option (List Nat)) (use_args : Bool) : Option (Int × State) :=
  if s.core.ready = 0 then some (BPF_OK, s) else
  let cpu := cur_cpu K
  let s := s.log .get_smp_processor_id
  if ¬ s.inBounds cpu then none else
  let s := snapshot_lbr E K s cpu
  let pid := cur_pid K
  let s := s.log .get_current_pid_tgid
  if E.cfg.pid ≠ 0 ∧ pid ≠ E.cfg.pid then some (BPF_OK, s) else
  let g := gen_session_id K s
  let session_id := g.1
  let f := filter E g.2 (if use_args then .args args else .ctx ctx) session_id
  if f.1 = false then some (BPF_OK, f.2) else
  let s := fill_event E K f.2 ctx args use_args cpu pid session_id
  some (BPF_OK, ringbuf_output K s cpu (event_sz E))

/-- The program `fexit_fn`. -/
def fexit_fn (E : Env) (K : Kernel) (s : State) (ctx : Nat) : Option (Int × State) :=
  emit_btrace_event E K s ctx none false

/-- The program `fentry_fn`. -/
def fentry_fn (E : Env) (K : Kernel) (s : State) (ctx : Nat) : Option (Int × State) :=
  emit_btrace_event E K s ctx none false

/-- The function `handle_tp_event`. -/
def handle_tp_event (E : Env) (K : Kernel) (s : State) (ctx : Nat)
    (args : Option (List Nat)) : Option (Int × State) :=
  emit_btrace_event E K s ctx args true

/-- The program `tp_btf_fn`, as written in the source: a zeroed argument vector of
`MAX_FN_ARGS` entries. -/
def tp_btf_fn (E : Env) (K : Kernel) (s : State) (ctx : Nat) : Option (Int × State) :=
  handle_tp_event E K s ctx (some (List.replicate E.lay.MAX_FN_ARGS 0))

/-- The records pushed by the `bpf_ringbuf_output` calls of a call log, with their
sizes. -/
def pushes (t : List Call) : List (Event × Nat) :=
  t.filterMap (fun c => match c with
    | .ringbuf_output r sz => some (r, sz)
    | _ => none)

/-! ## A concrete configuration, used to evaluate the model -/

/-- Header routines for the examples: the argument filter rejects context `13`, the
packet filter rejects context `14` and records the session id it was given; each filler
leaves a mark in the slot it was handed. -/
def demoExt : Ext where
  filter_fnarg := fun scr p => (decide (p ≠ Ptr.ctx 13), scr)
  filter_pkt := fun scr p sid => (decide (p ≠ Ptr.ctx 14), { scr with aux := sid :: scr.aux })
  output_lbr_data := fun scr _ sid => { scr with aux := sid :: scr.aux }
  output_fn_data_vol := fun scr e cpu a =>
    ({ e with fn_data := a.getD [] }, { scr with str := scr.str.set cpu [1] })
  output_fn_data := fun scr e c retval cpu =>
    ({ e with fn_data := [c, retval] }, { scr with str := scr.str.set cpu [2] })
  output_pkt_tuple := fun scr _ cpu sid => { scr with pkt := scr.pkt.set cpu [sid] }
  output_arg_data := fun scr _ cpu sid => { scr with arg := scr.arg.set cpu [sid] }

/-- Helper outcomes for the examples: CPU 1, process 1234, a readable two-level frame
chain, return value 42, and a ring buffer with room for two records. -/
def demoKernel : Kernel where
  smp_processor_id := 1
  branch_snapshot := fun _ => ([7, 8], 16)
  current_pid_tgid := 1234 * 2 ^ 32 + 5678
  r10 := 1000
  probe_read_kernel := fun a =>
    if a = 1000 then some 2000 else if a = 2000 then some 0xFFFF888812345678 else none
  prandom_u32 := 0xDEADBEEF
  func_ret := fun _ => some 42
  func_ip := fun _ => 0xFFFFFFFF81000000
  current_comm := [98, 97, 115, 104]
  stackid := fun t c => (t.length, t ++ [[c]])
  ringbuf_room := fun evs _ => decide (evs.length < 2)

/-- The helper outcomes of `demoKernel` with a full ring buffer. -/
def fullKernel : Kernel :=
  { demoKernel with ringbuf_room := fun _ _ => false }

/-- A layout for the examples: a 56-byte header, 16-byte argument slots, 12 slots. -/
def demoLayout : Layout := ⟨56, 16, 12⟩

/-- A configuration with the pid filter unset and every feature flag off. -/
def plainEnv : Env :=
  ⟨⟨0, false, false, false, false, 0⟩, 0, demoLayout, demoExt⟩

/-- A configuration with every feature flag on, three arguments, the pid filter set to
process 1234 and a static function address. -/
def fullEnv : Env :=
  ⟨⟨1234, true, true, true, true, 3⟩, 0xFFFFFFFF81234567, demoLayout, demoExt⟩

/-- A configuration as `fullEnv` whose pid filter names another process. -/
def otherPidEnv : Env :=
  ⟨⟨77, true, true, true, true, 3⟩, 0, demoLayout, demoExt⟩

/-- An all-zero event slot. -/
def zeroEvent : Event := ⟨0, 0, 0, 0, 0, [], 0, []⟩

/-- Two CPUs, all slots zeroed, nothing emitted yet, `ready` as given. -/
def bootState (ready : Nat) : State :=
  ⟨⟨ready, [zeroEvent, zeroEvent], [], []⟩,
   ⟨[⟨[], 0⟩, ⟨[], 0⟩], [[], []], [[], []], [[], []], []⟩, []⟩

/-! ## Observations used to state the properties -/

/-- The pointer handed to the filters: `use_args ? (void *) args : ctx`. -/
def gate_ptr (ctx : Nat) (args : Option (List Nat)) (use_args : Bool) : Ptr :=
  if use_args then .args args else .ctx ctx

/-- The session id of an invocation: `gen_session_id` applied to the frame chain and the
random draw of this invocation. -/
def sid_of (K : Kernel) : Nat :=
  session_id_of (probe_read K (probe_read K (K.r10 % U64))) (K.prandom_u32 % U32)

/-- The pid gate of line 92 lets the invocation through. -/
def pid_ok (E : Env) (K : Kernel) : Prop :=
  E.cfg.pid = 0 ∨ cur_pid K = E.cfg.pid

instance (E : Env) (K : Kernel) : Decidable (pid_ok E K) := by
  unfold pid_ok; infer_instance

/-- The scratch state on which the filters run: the one of `s` after the branch
snapshot of lines 84-85. -/
def scr_at_gate (E : Env) (K : Kernel) (s : State) : Scratch :=
  (snapshot_lbr E K s (cur_cpu K)).scr

/-- What `filter_fnarg` answers in this invocation, and the scratch state it leaves. -/
def fnarg_res (E : Env) (K : Kernel) (s : State) (p : Ptr) : Bool × Scratch :=
  E.ext.filter_fnarg (scr_at_gate E K s) p

/-- What `filter_pkt` answers in this invocation (run after `filter_fnarg`, with the
session id), and the scratch state it leaves. -/
def pkt_res (E : Env) (K : Kernel) (s : State) (p : Ptr) : Bool × Scratch :=
  E.ext.filter_pkt (fnarg_res E K s p).2 p (sid_of K)

/-- The calls made by lines 77-91: processor id, branch snapshot when enabled, pid. -/
def head_calls (E : Env) (K : Kernel) : List Call :=
  [Call.get_smp_processor_id] ++
  (if E.cfg.output_lbr then [Call.get_branch_snapshot (cur_cpu K)] else []) ++
  [Call.get_current_pid_tgid]

/-- The calls made by `gen_session_id`: two frame reads and one random draw. -/
def sid_calls (K : Kernel) : List Call :=
  [Call.probe_read_kernel (K.r10 % U64),
   Call.probe_read_kernel (probe_read K (K.r10 % U64)),
   Call.get_prandom_u32]

/-- The calls made by lines 99-125 on an accepted invocation, in program order. -/
def fill_calls (E : Env) (K : Kernel) (ctx : Nat) (args : Option (List Nat))
    (use_args : Bool) : List Call :=
  (if use_args then [] else [Call.get_func_ret ctx]) ++
  (if E.FUNC_IP ≠ 0 then [] else [Call.get_func_ip ctx]) ++
  [Call.get_current_comm] ++
  (if E.cfg.output_stack then [Call.get_stackid ctx] else []) ++
  (if E.cfg.output_lbr then [Call.output_lbr_data (cur_cpu K) (sid_of K)] else []) ++
  [if use_args then Call.output_fn_data_vol (cur_cpu K) args
   else Call.output_fn_data (cur_cpu K) ctx (retval_of K ctx use_args)] ++
  (if E.cfg.output_pkt then
    [Call.output_pkt_tuple (gate_ptr ctx args use_args) (cur_cpu K) (sid_of K)] else []) ++
  (if E.cfg.output_arg then
    [Call.output_arg_data (gate_ptr ctx args use_args) (cur_cpu K) (sid_of K)] else [])

/-- All four gate predicates hold, evaluated in program order. -/
def should_record (E : Env) (K : Kernel) (s : State) (ctx : Nat)
    (args : Option (List Nat)) (use_args : Bool) : Prop :=
  s.core.ready ≠ 0 ∧ pid_ok E K ∧
  (fnarg_res E K s (gate_ptr ctx args use_args)).1 = true ∧
  (pkt_res E K s (gate_ptr ctx args use_args)).1 = true

instance (E : Env) (K : Kernel) (s : State) (ctx : Nat) (args : Option (List Nat))
    (use_args : Bool) : Decidable (should_record E K s ctx args use_args) := by
  unfold should_record; infer_instance

/-- The state in which the filters have accepted: lines 77-97 done, nothing filled. -/
def accepted_state (E : Env) (K : Kernel) (s : State) (ctx : Nat)
    (args : Option (List Nat)) (use_args : Bool) : State :=
  ⟨s.core, (pkt_res E K s (gate_ptr ctx args use_args)).2,
    s.trace ++ head_calls E K ++ sid_calls K ++
      [Call.filter_fnarg (gate_ptr ctx args use_args),
       Call.filter_pkt (gate_ptr ctx args use_args) (sid_of K)]⟩

/-- The state just before the push of line 129 on an accepted invocation. -/
def filled_state (E : Env) (K : Kernel) (s : State) (ctx : Nat)
    (args : Option (List Nat)) (use_args : Bool) : State :=
  fill_event E K (accepted_state E K s ctx args use_args) ctx args use_args
    (cur_cpu K) (cur_pid K) (sid_of K)

/-- The record handed to `bpf_ringbuf_output` on an accepted invocation. -/
def record_of (E : Env) (K : Kernel) (s : State) (ctx : Nat)
    (args : Option (List Nat)) (use_args : Bool) : Event :=
  (filled_state E K s ctx args use_args).evtAt (cur_cpu K)

/-- The event slot as lines 99-110 leave it, starting from the slot content `e0` and
the stack table `st`: the header fields are assigned, `func_ret` only on the context
path, and the argument tail is the one already in the slot. -/
def header_of (E : Env) (K : Kernel) (e0 : Event) (st : List (List Nat)) (ctx : Nat)
    (use_args : Bool) : Event :=
  { session_id := sid_of K
    func_ip := if E.FUNC_IP ≠ 0 then E.FUNC_IP else K.func_ip ctx % U64
    func_ret := if use_args then e0.func_ret else retval_of K ctx use_args
    cpu := cur_cpu K
    pid := cur_pid K
    comm := K.current_comm
    func_stack_id := if E.cfg.output_stack then (K.stackid st ctx).1 else -1
    fn_data := e0.fn_data }

/-- The scratch state handed to `output_fn_data` / `output_fn_data_vol`: the one the
filters left, after `output_lbr_data` when branch capture is enabled. -/
def scr_after_lbr (E : Env) (K : Kernel) (s : State) (p : Ptr) : Scratch :=
  if E.cfg.output_lbr then E.ext.output_lbr_data (pkt_res E K s p).2 (cur_cpu K) (sid_of K)
  else (pkt_res E K s p).2

/-- Scratch state `b` agrees with `a` on every per-CPU slot other than those of `c`. -/
def Scratch.sameOff (c : Nat) (a b : Scratch) : Prop :=
  ∀ i, i ≠ c →
    b.lbr[i]? = a.lbr[i]? ∧ b.str[i]? = a.str[i]? ∧ b.pkt[i]? = a.pkt[i]? ∧
    b.arg[i]? = a.arg[i]?

/-- The header routines, run on CPU `c`, write the per-CPU scratch arrays only at
index `c`. -/
def Ext.local (X : Ext) (c : Nat) : Prop :=
  (∀ scr p, Scratch.sameOff c scr (X.filter_fnarg scr p).2) ∧
  (∀ scr p sid, Scratch.sameOff c scr (X.filter_pkt scr p sid).2) ∧
  (∀ scr sid, Scratch.sameOff c scr (X.output_lbr_data scr c sid)) ∧
  (∀ scr e a, Scratch.sameOff c scr (X.output_fn_data_vol scr e c a).2) ∧
  (∀ scr e x r, Scratch.sameOff c scr (X.output_fn_data scr e x r c).2) ∧
  (∀ scr p sid, Scratch.sameOff c scr (X.output_pkt_tuple scr p c sid)) ∧
  (∀ scr p sid, Scratch.sameOff c scr (X.output_arg_data scr p c sid))

/-- The filters leave the branch-history array alone. -/
def Ext.filters_keep_lbr (X : Ext) : Prop :=
  (∀ scr p, (X.filter_fnarg scr p).2.lbr = scr.lbr) ∧
  (∀ scr p sid, (X.filter_pkt scr p sid).2.lbr = scr.lbr)

/-- The content of the `lbr` slot after the branch snapshot of line 85. -/
def lbr_snapshot (K : Kernel) (s : State) : LbrData :=
  let r := K.branch_snapshot (s.scr.lbr.getD (cur_cpu K) ⟨[], 0⟩).entries
  ⟨r.1, r.2⟩

/-- The calls of one invocation, in program order. -/
def new_calls (E : Env) (K : Kernel) (s : State) (ctx : Nat) (args : Option (List Nat))
    (use_args : Bool) : List Call :=
  if s.core.ready = 0 then []
  else if ¬ pid_ok E K then head_calls E K
  else if (fnarg_res E K s (gate_ptr ctx args use_args)).1 = false then
    head_calls E K ++ sid_calls K ++ [Call.filter_fnarg (gate_ptr ctx args use_args)]
  else if (pkt_res E K s (gate_ptr ctx args use_args)).1 = false then
    head_calls E K ++ sid_calls K ++
      [Call.filter_fnarg (gate_ptr ctx args use_args),
       Call.filter_pkt (gate_ptr ctx args use_args) (sid_of K)]
  else
    head_calls E K ++ sid_calls K ++
      [Call.filter_fnarg (gate_ptr ctx args use_args),
       Call.filter_pkt (gate_ptr ctx args use_args) (sid_of K)] ++
      fill_calls E K ctx args use_args ++
      [Call.ringbuf_output (record_of E K s ctx args use_args) (event_sz E)]

/-- A configuration with the pid filter unset, every feature flag off, and three
configured arguments. -/
def argsEnv : Env :=
  ⟨⟨0, false, false, false, false, 3⟩, 0, demoLayout, demoExt⟩

/-- The calls that touch a capture source other than the branch snapshot, or the
channel: everything the orchestrator calls after the filter gate. -/
def Call.isCapture : Call → Bool
  | .get_func_ret _ => true
  | .get_func_ip _ => true
  | .get_current_comm => true
  | .get_stackid _ => true
  | .output_lbr_data _ _ => true
  | .output_fn_data_vol _ _ => true
  | .output_fn_data _ _ _ => true
  | .output_pkt_tuple _ _ _ => true
  | .output_arg_data _ _ _ => true
  | .ringbuf_output _ _ => true
  | _ => false

/-! ## Lemmas and theorems -/

@[simp]
theorem log_trace (s : State) (c : Call) : (s.log c).trace = s.trace ++ [c] := rfl

@[simp]
theorem log_core (s : State) (c : Call) : (s.log c).core = s.core := rfl

@[simp]
theorem log_scr (s : State) (c : Call) : (s.log c).scr = s.scr := rfl

@[simp]
theorem setScr_trace (s : State) (x : Scratch) : (s.setScr x).trace = s.trace := rfl

@[simp]
theorem setScr_core (s : State) (x : Scratch) : (s.setScr x).core = s.core := rfl

@[simp]
theorem setScr_scr (s : State) (x : Scratch) : (s.setScr x).scr = x := rfl

@[simp]
theorem updEvt_trace (s : State) (i : Nat) (f : Event → Event) :
    (s.updEvt i f).trace = s.trace := rfl

@[simp]
theorem updEvt_scr (s : State) (i : Nat) (f : Event → Event) :
    (s.updEvt i f).scr = s.scr := rfl

@[simp]
theorem updEvt_ready (s : State) (i : Nat) (f : Event → Event) :
    (s.updEvt i f).core.ready = s.core.ready := rfl

@[simp]
theorem updEvt_stacks (s : State) (i : Nat) (f : Event → Event) :
    (s.updEvt i f).core.btrace_stacks = s.core.btrace_stacks := rfl

@[simp]
theorem updEvt_events (s : State) (i : Nat) (f : Event → Event) :
    (s.updEvt i f).core.btrace_events = s.core.btrace_events := rfl

@[simp]
theorem updEvt_evt_length (s : State) (i : Nat) (f : Event → Event) :
    (s.updEvt i f).core.evt.length = s.core.evt.length := by
  simp [State.updEvt]

@[simp]
theorem evtAt_log (s : State) (c : Call) (i : Nat) : (s.log c).evtAt i = s.evtAt i := rfl

@[simp]
theorem evtAt_setScr (s : State) (x : Scratch) (i : Nat) :
    (s.setScr x).evtAt i = s.evtAt i := rfl

theorem evtAt_updEvt (s : State) (i : Nat) (f : Event → Event) (h : i < s.core.evt.length) :
    (s.updEvt i f).evtAt i = f (s.evtAt i) := by
  simp [State.updEvt, State.evtAt, List.getD_eq_getElem?_getD, h]

theorem evt_updEvt_ne (s : State) (i j : Nat) (f : Event → Event) (h : j ≠ i) :
    (s.updEvt i f).core.evt[j]? = s.core.evt[j]? := by
  simp [State.updEvt, List.getElem?_set_ne (Ne.symm h)]

theorem inBounds_log (s : State) (c : Call) (i : Nat) :
    (s.log c).inBounds i ↔ s.inBounds i := Iff.rfl

theorem gate_state_eq (E : Env) (K : Kernel) (s : State) :
    (snapshot_lbr E K (s.log Call.get_smp_processor_id) (cur_cpu K)).log
        Call.get_current_pid_tgid
      = ⟨s.core, scr_at_gate E K s, s.trace ++ head_calls E K⟩ := by
  unfold scr_at_gate snapshot_lbr head_calls
  by_cases h : E.cfg.output_lbr = true <;> simp [h, State.log, State.setScr]

theorem gen_session_id_eq (K : Kernel) (s : State) :
    gen_session_id K s = (sid_of K, ⟨s.core, s.scr, s.trace ++ sid_calls K⟩) := by
  simp [gen_session_id, get_tracee_caller_fp, sid_of, sid_calls, State.log, U32]

theorem filter_eq (E : Env) (s : State) (p : Ptr) (sid : Nat) :
    filter E s p sid =
      if (E.ext.filter_fnarg s.scr p).1 = true then
        ((E.ext.filter_pkt (E.ext.filter_fnarg s.scr p).2 p sid).1,
          ⟨s.core, (E.ext.filter_pkt (E.ext.filter_fnarg s.scr p).2 p sid).2,
            s.trace ++ [Call.filter_fnarg p, Call.filter_pkt p sid]⟩)
      else
        (false, ⟨s.core, (E.ext.filter_fnarg s.scr p).2, s.trace ++ [Call.filter_fnarg p]⟩) := by
  unfold filter
  by_cases h : (E.ext.filter_fnarg s.scr p).1 = true <;> simp [h, State.log, State.setScr]

/-- The orchestrator, path by path. -/
theorem emit_eq (E : Env) (K : Kernel) (s : State) (ctx : Nat) (args : Option (List Nat))
    (use_args : Bool) (hb : s.inBounds (cur_cpu K)) :
    emit_btrace_event E K s ctx args use_args =
      if s.core.ready = 0 then some (BPF_OK, s)
      else if ¬ pid_ok E K then
        some (BPF_OK, ⟨s.core, scr_at_gate E K s, s.trace ++ head_calls E K⟩)
      else if (fnarg_res E K s (gate_ptr ctx args use_args)).1 = false then
        some (BPF_OK, ⟨s.core, (fnarg_res E K s (gate_ptr ctx args use_args)).2,
          s.trace ++ head_calls E K ++ sid_calls K ++
            [Call.filter_fnarg (gate_ptr ctx args use_args)]⟩)
      else if (pkt_res E K s (gate_ptr ctx args use_args)).1 = false then
        some (BPF_OK, accepted_state E K s ctx args use_args)
      else
        some (BPF_OK, ringbuf_output K (filled_state E K s ctx args use_args) (cur_cpu K)
          (event_sz E)) := by
  unfold emit_btrace_event
  by_cases hr : s.core.ready = 0
  · simp [hr]
  · have hb2 : (s.log Call.get_smp_processor_id).inBounds (cur_cpu K) := hb
    simp only [hr, if_false, hb2, not_true_eq_false, gate_state_eq, gen_session_id_eq,
      filter_eq]
    by_cases hp : pid_ok E K
    · have hp2 : ¬ (E.cfg.pid ≠ 0 ∧ cur_pid K ≠ E.cfg.pid) := by
        unfold pid_ok at hp; tauto
      simp only [hp2, if_false, hp, not_true_eq_false]
      by_cases hf : (fnarg_res E K s (gate_ptr ctx args use_args)).1 = true
      · have hf2 : (E.ext.filter_fnarg (scr_at_gate E K s)
            (if use_args = true then Ptr.args args else Ptr.ctx ctx)).1 = true := hf
        by_cases hk : (pkt_res E K s (gate_ptr ctx args use_args)).1 = true
        · have hk2 : (E.ext.filter_pkt (E.ext.filter_fnarg (scr_at_gate E K s)
              (if use_args = true then Ptr.args args else Ptr.ctx ctx)).2
              (if use_args = true then Ptr.args args else Ptr.ctx ctx) (sid_of K)).1 = true := hk
          simp [hf, hk, hf2, hk2, filled_state, accepted_state, pkt_res, fnarg_res, gate_ptr]
        · have hk2 : ¬ (E.ext.filter_pkt (E.ext.filter_fnarg (scr_at_gate E K s)
              (if use_args = true then Ptr.args args else Ptr.ctx ctx)).2
              (if use_args = true then Ptr.args args else Ptr.ctx ctx) (sid_of K)).1 = true := hk
          simp [hf, hk, hf2, hk2, accepted_state, pkt_res, fnarg_res, gate_ptr]
      · have hf2 : ¬ (E.ext.filter_fnarg (scr_at_gate E K s)
            (if use_args = true then Ptr.args args else Ptr.ctx ctx)).1 = true := hf
        simp [hf, hf2, fnarg_res, gate_ptr]
    · have hp2 : (E.cfg.pid ≠ 0 ∧ cur_pid K ≠ E.cfg.pid) := by
        unfold pid_ok at hp; tauto
      simp [hp2, hp]

theorem fill_header_trace (E : Env) (K : Kernel) (s : State) (ctx : Nat)
    (use_args : Bool) (cpu pid sid : Nat) :
    (fill_header E K s ctx use_args cpu pid sid).trace =
      s.trace ++ (if use_args then [] else [Call.get_func_ret ctx]) ++
        (if E.FUNC_IP ≠ 0 then [] else [Call.get_func_ip ctx]) ++ [Call.get_current_comm] := by
  unfold fill_header
  cases use_args <;> by_cases h : E.FUNC_IP = 0 <;> simp [h]

theorem fill_stack_trace (E : Env) (K : Kernel) (s : State) (ctx cpu : Nat) :
    (fill_stack E K s ctx cpu).trace =
      s.trace ++ (if E.cfg.output_stack then [Call.get_stackid ctx] else []) := by
  unfold fill_stack
  by_cases h : E.cfg.output_stack = true <;> simp [h]

theorem fill_lbr_trace (E : Env) (s : State) (cpu sid : Nat) :
    (fill_lbr E s cpu sid).trace =
      s.trace ++ (if E.cfg.output_lbr then [Call.output_lbr_data cpu sid] else []) := by
  unfold fill_lbr
  by_cases h : E.cfg.output_lbr = true <;> simp [h]

theorem fill_pkt_trace (E : Env) (s : State) (p : Ptr) (cpu sid : Nat) :
    (fill_pkt E s p cpu sid).trace =
      s.trace ++ (if E.cfg.output_pkt then [Call.output_pkt_tuple p cpu sid] else []) := by
  unfold fill_pkt
  by_cases h : E.cfg.output_pkt = true <;> simp [h]

theorem fill_arg_trace (E : Env) (s : State) (p : Ptr) (cpu sid : Nat) :
    (fill_arg E s p cpu sid).trace =
      s.trace ++ (if E.cfg.output_arg then [Call.output_arg_data p cpu sid] else []) := by
  unfold fill_arg
  by_cases h : E.cfg.output_arg = true <;> simp [h]

theorem fill_fn_data_trace (E : Env) (K : Kernel) (s : State) (ctx : Nat)
    (args : Option (List Nat)) (use_args : Bool) (cpu : Nat) :
    (fill_fn_data E K s ctx args use_args cpu).trace =
      s.trace ++ [if use_args then Call.output_fn_data_vol cpu args
        else Call.output_fn_data cpu ctx (retval_of K ctx use_args)] := by
  unfold fill_fn_data
  cases use_args <;> simp

theorem fill_event_trace (E : Env) (K : Kernel) (s : State) (ctx : Nat)
    (args : Option (List Nat)) (use_args : Bool) (pid : Nat) :
    (fill_event E K s ctx args use_args (cur_cpu K) pid (sid_of K)).trace =
      s.trace ++ fill_calls E K ctx args use_args := by
  simp only [fill_event, fill_calls, gate_ptr, fill_arg_trace, fill_pkt_trace,
    fill_fn_data_trace, fill_lbr_trace, fill_stack_trace, fill_header_trace,
    List.append_assoc]

theorem fill_header_evtAt (E : Env) (K : Kernel) (s : State) (ctx : Nat) (use_args : Bool)
    (cpu pid sid : Nat) (h : cpu < s.core.evt.length) :
    (fill_header E K s ctx use_args cpu pid sid).evtAt cpu =
      { session_id := sid
        func_ip := if E.FUNC_IP ≠ 0 then E.FUNC_IP else K.func_ip ctx % U64
        func_ret := if use_args then (s.evtAt cpu).func_ret else retval_of K ctx use_args
        cpu := cpu
        pid := pid
        comm := K.current_comm
        func_stack_id := -1
        fn_data := (s.evtAt cpu).fn_data } := by
  unfold fill_header
  cases use_args <;> by_cases h0 : E.FUNC_IP = 0 <;> simp [h0, evtAt_updEvt, h]

@[simp]
theorem fill_header_scr (E : Env) (K : Kernel) (s : State) (ctx : Nat)
    (use_args : Bool) (cpu pid sid : Nat) :
    (fill_header E K s ctx use_args cpu pid sid).scr = s.scr := by
  unfold fill_header
  cases use_args <;> by_cases h0 : E.FUNC_IP = 0 <;> simp [h0]

@[simp]
theorem fill_header_stacks (E : Env) (K : Kernel) (s : State) (ctx : Nat)
    (use_args : Bool) (cpu pid sid : Nat) :
    (fill_header E K s ctx use_args cpu pid sid).core.btrace_stacks = s.core.btrace_stacks := by
  unfold fill_header
  cases use_args <;> by_cases h0 : E.FUNC_IP = 0 <;> simp [h0]

@[simp]
theorem fill_header_events (E : Env) (K : Kernel) (s : State) (ctx : Nat)
    (use_args : Bool) (cpu pid sid : Nat) :
    (fill_header E K s ctx use_args cpu pid sid).core.btrace_events = s.core.btrace_events := by
  unfold fill_header
  cases use_args <;> by_cases h0 : E.FUNC_IP = 0 <;> simp [h0]

@[simp]
theorem fill_header_ready (E : Env) (K : Kernel) (s : State) (ctx : Nat)
    (use_args : Bool) (cpu pid sid : Nat) :
    (fill_header E K s ctx use_args cpu pid sid).core.ready = s.core.ready := by
  unfold fill_header
  cases use_args <;> by_cases h0 : E.FUNC_IP = 0 <;> simp [h0]

@[simp]
theorem fill_header_evt_length (E : Env) (K : Kernel) (s : State) (ctx : Nat)
    (use_args : Bool) (cpu pid sid : Nat) :
    (fill_header E K s ctx use_args cpu pid sid).core.evt.length = s.core.evt.length := by
  unfold fill_header
  cases use_args <;> by_cases h0 : E.FUNC_IP = 0 <;> simp [h0]

theorem fill_header_evt_ne (E : Env) (K : Kernel) (s : State) (ctx : Nat)
    (use_args : Bool) (cpu pid sid j : Nat) (hj : j ≠ cpu) :
    (fill_header E K s ctx use_args cpu pid sid).core.evt[j]? = s.core.evt[j]? := by
  unfold fill_header
  cases use_args <;> by_cases h0 : E.FUNC_IP = 0 <;> simp [h0, evt_updEvt_ne, hj]

theorem fill_stack_evtAt (E : Env) (K : Kernel) (s : State) (ctx cpu : Nat)
    (h : cpu < s.core.evt.length) :
    (fill_stack E K s ctx cpu).evtAt cpu =
      { s.evtAt cpu with
        func_stack_id := if E.cfg.output_stack then (K.stackid s.core.btrace_stacks ctx).1
          else (s.evtAt cpu).func_stack_id } := by
  unfold fill_stack
  by_cases h0 : E.cfg.output_stack = true
  · simp only [h0, if_true]
    rw [evtAt_updEvt _ _ _ (by simpa using h)]
    rfl
  · simp [h0]

@[simp]
theorem fill_stack_scr (E : Env) (K : Kernel) (s : State) (ctx cpu : Nat) :
    (fill_stack E K s ctx cpu).scr = s.scr := by
  unfold fill_stack
  by_cases h0 : E.cfg.output_stack = true <;> simp [h0]

@[simp]
theorem fill_stack_events (E : Env) (K : Kernel) (s : State) (ctx cpu : Nat) :
    (fill_stack E K s ctx cpu).core.btrace_events = s.core.btrace_events := by
  unfold fill_stack
  by_cases h0 : E.cfg.output_stack = true <;> simp [h0]

@[simp]
theorem fill_stack_ready (E : Env) (K : Kernel) (s : State) (ctx cpu : Nat) :
    (fill_stack E K s ctx cpu).core.ready = s.core.ready := by
  unfold fill_stack
  by_cases h0 : E.cfg.output_stack = true <;> simp [h0]

@[simp]
theorem fill_stack_evt_length (E : Env) (K : Kernel) (s : State) (ctx cpu : Nat) :
    (fill_stack E K s ctx cpu).core.evt.length = s.core.evt.length := by
  unfold fill_stack
  by_cases h0 : E.cfg.output_stack = true <;> simp [h0]

theorem fill_stack_evt_ne (E : Env) (K : Kernel) (s : State) (ctx cpu j : Nat)
    (hj : j ≠ cpu) : (fill_stack E K s ctx cpu).core.evt[j]? = s.core.evt[j]? := by
  unfold fill_stack
  by_cases h0 : E.cfg.output_stack = true
  · simp only [h0, if_true]
    rw [evt_updEvt_ne _ _ _ _ hj]
    rfl
  · simp [h0]

@[simp]
theorem fill_lbr_core (E : Env) (s : State) (cpu sid : Nat) :
    (fill_lbr E s cpu sid).core = s.core := by
  unfold fill_lbr
  by_cases h0 : E.cfg.output_lbr = true <;> simp [h0]

@[simp]
theorem fill_lbr_evtAt (E : Env) (s : State) (cpu sid i : Nat) :
    (fill_lbr E s cpu sid).evtAt i = s.evtAt i := by
  simp [State.evtAt]

theorem fill_lbr_scr (E : Env) (s : State) (cpu sid : Nat) :
    (fill_lbr E s cpu sid).scr =
      if E.cfg.output_lbr then E.ext.output_lbr_data s.scr cpu sid else s.scr := by
  unfold fill_lbr
  by_cases h0 : E.cfg.output_lbr = true <;> simp [h0]

@[simp]
theorem fill_pkt_core (E : Env) (s : State) (p : Ptr) (cpu sid : Nat) :
    (fill_pkt E s p cpu sid).core = s.core := by
  unfold fill_pkt
  by_cases h0 : E.cfg.output_pkt = true <;> simp [h0]

@[simp]
theorem fill_pkt_evtAt (E : Env) (s : State) (p : Ptr) (cpu sid i : Nat) :
    (fill_pkt E s p cpu sid).evtAt i = s.evtAt i := by
  simp [State.evtAt]

theorem fill_pkt_scr (E : Env) (s : State) (p : Ptr) (cpu sid : Nat) :
    (fill_pkt E s p cpu sid).scr =
      if E.cfg.output_pkt then E.ext.output_pkt_tuple s.scr p cpu sid else s.scr := by
  unfold fill_pkt
  by_cases h0 : E.cfg.output_pkt = true <;> simp [h0]

@[simp]
theorem fill_arg_core (E : Env) (s : State) (p : Ptr) (cpu sid : Nat) :
    (fill_arg E s p cpu sid).core = s.core := by
  unfold fill_arg
  by_cases h0 : E.cfg.output_arg = true <;> simp [h0]

@[simp]
theorem fill_arg_evtAt (E : Env) (s : State) (p : Ptr) (cpu sid i : Nat) :
    (fill_arg E s p cpu sid).evtAt i = s.evtAt i := by
  simp [State.evtAt]

theorem fill_arg_scr (E : Env) (s : State) (p : Ptr) (cpu sid : Nat) :
    (fill_arg E s p cpu sid).scr =
      if E.cfg.output_arg then E.ext.output_arg_data s.scr p cpu sid else s.scr := by
  unfold fill_arg
  by_cases h0 : E.cfg.output_arg = true <;> simp [h0]

theorem fill_fn_data_evtAt (E : Env) (K : Kernel) (s : State) (ctx : Nat)
    (args : Option (List Nat)) (use_args : Bool) (cpu : Nat) (h : cpu < s.core.evt.length) :
    (fill_fn_data E K s ctx args use_args cpu).evtAt cpu =
      if use_args then (E.ext.output_fn_data_vol s.scr (s.evtAt cpu) cpu args).1
      else (E.ext.output_fn_data s.scr (s.evtAt cpu) ctx (retval_of K ctx use_args) cpu).1 := by
  unfold fill_fn_data
  cases use_args
  · simp only [Bool.false_eq_true, if_false, evtAt_log]
    rw [evtAt_updEvt _ _ _ (by simpa using h)]
  · simp only [if_true, evtAt_log]
    rw [evtAt_updEvt _ _ _ (by simpa using h)]

theorem fill_fn_data_scr (E : Env) (K : Kernel) (s : State) (ctx : Nat)
    (args : Option (List Nat)) (use_args : Bool) (cpu : Nat) :
    (fill_fn_data E K s ctx args use_args cpu).scr =
      if use_args then (E.ext.output_fn_data_vol s.scr (s.evtAt cpu) cpu args).2
      else (E.ext.output_fn_data s.scr (s.evtAt cpu) ctx (retval_of K ctx use_args) cpu).2 := by
  unfold fill_fn_data
  cases use_args <;> simp

@[simp]
theorem fill_fn_data_events (E : Env) (K : Kernel) (s : State) (ctx : Nat)
    (args : Option (List Nat)) (use_args : Bool) (cpu : Nat) :
    (fill_fn_data E K s ctx args use_args cpu).core.btrace_events = s.core.btrace_events := by
  unfold fill_fn_data
  cases use_args <;> simp

@[simp]
theorem fill_fn_data_ready (E : Env) (K : Kernel) (s : State) (ctx : Nat)
    (args : Option (List Nat)) (use_args : Bool) (cpu : Nat) :
    (fill_fn_data E K s ctx args use_args cpu).core.ready = s.core.ready := by
  unfold fill_fn_data
  cases use_args <;> simp

@[simp]
theorem fill_fn_data_evt_length (E : Env) (K : Kernel) (s : State) (ctx : Nat)
    (args : Option (List Nat)) (use_args : Bool) (cpu : Nat) :
    (fill_fn_data E K s ctx args use_args cpu).core.evt.length = s.core.evt.length := by
  unfold fill_fn_data
  cases use_args <;> simp

theorem fill_fn_data_evt_ne (E : Env) (K : Kernel) (s : State) (ctx : Nat)
    (args : Option (List Nat)) (use_args : Bool) (cpu j : Nat) (hj : j ≠ cpu) :
    (fill_fn_data E K s ctx args use_args cpu).core.evt[j]? = s.core.evt[j]? := by
  unfold fill_fn_data
  cases use_args
  · simp only [Bool.false_eq_true, if_false, log_core]
    rw [evt_updEvt_ne _ _ _ _ hj]
    rfl
  · simp only [if_true, log_core]
    rw [evt_updEvt_ne _ _ _ _ hj]
    rfl

@[simp]
theorem ringbuf_output_trace (K : Kernel) (s : State) (cpu sz : Nat) :
    (ringbuf_output K s cpu sz).trace = s.trace ++ [Call.ringbuf_output (s.evtAt cpu) sz] := by
  unfold ringbuf_output
  by_cases h : K.ringbuf_room s.core.btrace_events sz = true <;> simp [h]

@[simp]
theorem ringbuf_output_scr (K : Kernel) (s : State) (cpu sz : Nat) :
    (ringbuf_output K s cpu sz).scr = s.scr := by
  unfold ringbuf_output
  by_cases h : K.ringbuf_room s.core.btrace_events sz = true <;> simp [h]

@[simp]
theorem ringbuf_output_evt (K : Kernel) (s : State) (cpu sz : Nat) :
    (ringbuf_output K s cpu sz).core.evt = s.core.evt := by
  unfold ringbuf_output
  by_cases h : K.ringbuf_room s.core.btrace_events sz = true <;> simp [h]

@[simp]
theorem ringbuf_output_ready (K : Kernel) (s : State) (cpu sz : Nat) :
    (ringbuf_output K s cpu sz).core.ready = s.core.ready := by
  unfold ringbuf_output
  by_cases h : K.ringbuf_room s.core.btrace_events sz = true <;> simp [h]

theorem ringbuf_output_events (K : Kernel) (s : State) (cpu sz : Nat) :
    (ringbuf_output K s cpu sz).core.btrace_events =
      s.core.btrace_events ++
        (if K.ringbuf_room s.core.btrace_events sz then [(s.evtAt cpu, sz)] else []) := by
  unfold ringbuf_output
  by_cases h : K.ringbuf_room s.core.btrace_events sz = true <;> simp [h]

@[simp]
theorem accepted_state_core (E : Env) (K : Kernel) (s : State) (ctx : Nat)
    (args : Option (List Nat)) (use_args : Bool) :
    (accepted_state E K s ctx args use_args).core = s.core := rfl

@[simp]
theorem accepted_state_evtAt (E : Env) (K : Kernel) (s : State) (ctx : Nat)
    (args : Option (List Nat)) (use_args : Bool) (i : Nat) :
    (accepted_state E K s ctx args use_args).evtAt i = s.evtAt i := rfl

@[simp]
theorem accepted_state_scr (E : Env) (K : Kernel) (s : State) (ctx : Nat)
    (args : Option (List Nat)) (use_args : Bool) :
    (accepted_state E K s ctx args use_args).scr =
      (pkt_res E K s (gate_ptr ctx args use_args)).2 := rfl

theorem filled_state_trace (E : Env) (K : Kernel) (s : State) (ctx : Nat)
    (args : Option (List Nat)) (use_args : Bool) :
    (filled_state E K s ctx args use_args).trace =
      s.trace ++ head_calls E K ++ sid_calls K ++
        [Call.filter_fnarg (gate_ptr ctx args use_args),
         Call.filter_pkt (gate_ptr ctx args use_args) (sid_of K)] ++
        fill_calls E K ctx args use_args := by
  unfold filled_state
  rw [fill_event_trace]
  rfl

/-- The record of an accepted invocation: the header of lines 99-110 as completed by
`output_fn_data` or `output_fn_data_vol`. -/
theorem record_of_eq (E : Env) (K : Kernel) (s : State) (ctx : Nat)
    (args : Option (List Nat)) (use_args : Bool) (h : cur_cpu K < s.core.evt.length) :
    record_of E K s ctx args use_args =
      if use_args then
        (E.ext.output_fn_data_vol (scr_after_lbr E K s (gate_ptr ctx args use_args))
          (header_of E K (s.evtAt (cur_cpu K)) s.core.btrace_stacks ctx use_args)
          (cur_cpu K) args).1
      else
        (E.ext.output_fn_data (scr_after_lbr E K s (gate_ptr ctx args use_args))
          (header_of E K (s.evtAt (cur_cpu K)) s.core.btrace_stacks ctx use_args) ctx
          (retval_of K ctx use_args) (cur_cpu K)).1 := by
  unfold record_of filled_state fill_event
  simp only [fill_arg_evtAt, fill_pkt_evtAt]
  rw [fill_fn_data_evtAt _ _ _ _ _ _ _ (by simpa using h)]
  simp only [fill_lbr_evtAt, fill_lbr_scr, fill_stack_scr, fill_header_scr, accepted_state_scr]
  rw [fill_stack_evtAt _ _ _ _ _ (by simpa using h)]
  rw [fill_header_evtAt _ _ _ _ _ _ _ _ (by simpa using h)]
  simp only [fill_header_stacks, accepted_state_core, accepted_state_evtAt]
  rfl

theorem filled_state_events (E : Env) (K : Kernel) (s : State) (ctx : Nat)
    (args : Option (List Nat)) (use_args : Bool) :
    (filled_state E K s ctx args use_args).core.btrace_events = s.core.btrace_events := by
  simp [filled_state, fill_event]

theorem filled_state_ready (E : Env) (K : Kernel) (s : State) (ctx : Nat)
    (args : Option (List Nat)) (use_args : Bool) :
    (filled_state E K s ctx args use_args).core.ready = s.core.ready := by
  simp [filled_state, fill_event]

theorem filled_state_evt_ne (E : Env) (K : Kernel) (s : State) (ctx : Nat)
    (args : Option (List Nat)) (use_args : Bool) (j : Nat) (hj : j ≠ cur_cpu K) :
    (filled_state E K s ctx args use_args).core.evt[j]? = s.core.evt[j]? := by
  simp only [filled_state, fill_event, fill_arg_core, fill_pkt_core]
  rw [fill_fn_data_evt_ne _ _ _ _ _ _ _ _ hj]
  simp only [fill_lbr_core]
  rw [fill_stack_evt_ne _ _ _ _ _ _ hj, fill_header_evt_ne _ _ _ _ _ _ _ _ _ hj]
  rfl

@[simp]
theorem pushes_append (a b : List Call) : pushes (a ++ b) = pushes a ++ pushes b := by
  simp [pushes]

@[simp]
theorem pushes_head_calls (E : Env) (K : Kernel) : pushes (head_calls E K) = [] := by
  unfold head_calls pushes
  by_cases h : E.cfg.output_lbr = true <;> simp [h]

@[simp]
theorem pushes_sid_calls (K : Kernel) : pushes (sid_calls K) = [] := by
  simp [sid_calls, pushes]

@[simp]
theorem pushes_fill_calls (E : Env) (K : Kernel) (ctx : Nat)
    (args : Option (List Nat)) (use_args : Bool) :
    pushes (fill_calls E K ctx args use_args) = [] := by
  unfold fill_calls
  simp only [pushes_append]
  cases use_args <;> simp [pushes]

theorem Scratch.sameOff_refl (c : Nat) (a : Scratch) : Scratch.sameOff c a a :=
  fun _ _ => ⟨rfl, rfl, rfl, rfl⟩

theorem Scratch.sameOff_trans {c : Nat} {a b d : Scratch} (h1 : Scratch.sameOff c a b)
    (h2 : Scratch.sameOff c b d) : Scratch.sameOff c a d := by
  intro i hi
  obtain ⟨p1, p2, p3, p4⟩ := h1 i hi
  obtain ⟨q1, q2, q3, q4⟩ := h2 i hi
  exact ⟨q1.trans p1, q2.trans p2, q3.trans p3, q4.trans p4⟩

theorem scr_at_gate_eq (E : Env) (K : Kernel) (s : State) :
    scr_at_gate E K s =
      if E.cfg.output_lbr then
        { s.scr with lbr := s.scr.lbr.set (cur_cpu K) (lbr_snapshot K s) }
      else s.scr := by
  unfold scr_at_gate snapshot_lbr lbr_snapshot
  by_cases h : E.cfg.output_lbr = true <;> simp [h]

theorem scr_at_gate_frame (E : Env) (K : Kernel) (s : State) :
    Scratch.sameOff (cur_cpu K) s.scr (scr_at_gate E K s) := by
  rw [scr_at_gate_eq]
  by_cases h : E.cfg.output_lbr = true
  · intro i hi
    simp [h, List.getElem?_set_ne (Ne.symm hi)]
  · simp only [h]
    exact Scratch.sameOff_refl _ _

theorem fnarg_res_frame (E : Env) (K : Kernel) (s : State) (p : Ptr)
    (hloc : E.ext.local (cur_cpu K)) :
    Scratch.sameOff (cur_cpu K) s.scr (fnarg_res E K s p).2 :=
  Scratch.sameOff_trans (scr_at_gate_frame E K s) (hloc.1 _ _)

theorem pkt_res_frame (E : Env) (K : Kernel) (s : State) (p : Ptr)
    (hloc : E.ext.local (cur_cpu K)) :
    Scratch.sameOff (cur_cpu K) s.scr (pkt_res E K s p).2 :=
  Scratch.sameOff_trans (fnarg_res_frame E K s p hloc) (hloc.2.1 _ _ _)

theorem filled_state_scr_frame (E : Env) (K : Kernel) (s : State) (ctx : Nat)
    (args : Option (List Nat)) (use_args : Bool) (hloc : E.ext.local (cur_cpu K)) :
    Scratch.sameOff (cur_cpu K) s.scr (filled_state E K s ctx args use_args).scr := by
  have hloc2 : E.ext.local (cur_cpu K) := hloc
  obtain ⟨_, _, h3, h4, h5, h6, h7⟩ := hloc
  simp only [filled_state, fill_event, fill_arg_scr, fill_pkt_scr, fill_fn_data_scr,
    fill_lbr_scr, fill_stack_scr, fill_header_scr, accepted_state_scr]
  generalize (if use_args = true then Ptr.args args else Ptr.ctx ctx) = p
  have e1 : Scratch.sameOff (cur_cpu K) s.scr
      (if E.cfg.output_lbr = true then
        E.ext.output_lbr_data (pkt_res E K s (gate_ptr ctx args use_args)).2 (cur_cpu K)
          (sid_of K)
      else (pkt_res E K s (gate_ptr ctx args use_args)).2) := by
    split_ifs
    · exact Scratch.sameOff_trans (pkt_res_frame E K s _ hloc2) (h3 _ _)
    · exact pkt_res_frame E K s _ hloc2
  generalize (if E.cfg.output_lbr = true then
        E.ext.output_lbr_data (pkt_res E K s (gate_ptr ctx args use_args)).2 (cur_cpu K)
          (sid_of K)
      else (pkt_res E K s (gate_ptr ctx args use_args)).2) = x1 at e1 ⊢
  generalize (fill_lbr E
      (fill_stack E K
        (fill_header E K (accepted_state E K s ctx args use_args) ctx use_args (cur_cpu K)
          (cur_pid K) (sid_of K)) ctx (cur_cpu K)) (cur_cpu K) (sid_of K)).evtAt (cur_cpu K) = e0
  have e2 : Scratch.sameOff (cur_cpu K) s.scr
      (if use_args = true then (E.ext.output_fn_data_vol x1 e0 (cur_cpu K) args).2
        else (E.ext.output_fn_data x1 e0 ctx (retval_of K ctx use_args) (cur_cpu K)).2) := by
    split_ifs
    · exact Scratch.sameOff_trans e1 (h4 _ _ _)
    · exact Scratch.sameOff_trans e1 (h5 _ _ _ _)
  generalize (if use_args = true then (E.ext.output_fn_data_vol x1 e0 (cur_cpu K) args).2
        else (E.ext.output_fn_data x1 e0 ctx (retval_of K ctx use_args) (cur_cpu K)).2) = x2
    at e2 ⊢
  have e3 : Scratch.sameOff (cur_cpu K) s.scr
      (if E.cfg.output_pkt = true then E.ext.output_pkt_tuple x2 p (cur_cpu K) (sid_of K)
        else x2) := by
    split_ifs
    · exact Scratch.sameOff_trans e2 (h6 _ _ _)
    · exact e2
  generalize (if E.cfg.output_pkt = true then
    E.ext.output_pkt_tuple x2 p (cur_cpu K) (sid_of K) else x2) = x3 at e3 ⊢
  split_ifs
  · exact Scratch.sameOff_trans e3 (h7 _ _ _)
  · exact e3

theorem demoExt_local (c : Nat) : demoExt.local c := by
  unfold Ext.local Scratch.sameOff demoExt
  refine ⟨?_, ?_, ?_, ?_, ?_, ?_, ?_⟩ <;> intros <;>
    simp [List.getElem?_set_ne, Ne.symm, *]

theorem emit_trace (E : Env) (K : Kernel) (s : State) (ctx : Nat) (args : Option (List Nat))
    (use_args : Bool) (hb : s.inBounds (cur_cpu K)) :
    ∃ s2, emit_btrace_event E K s ctx args use_args = some (BPF_OK, s2) ∧
      s2.trace = s.trace ++ new_calls E K s ctx args use_args := by
  rw [emit_eq E K s ctx args use_args hb]
  unfold new_calls
  split_ifs <;> refine ⟨_, rfl, ?_⟩ <;>
    simp [accepted_state, filled_state_trace, record_of, List.append_assoc]

theorem drop_trace (s s2 : State) (t : List Call) (h : s2.trace = s.trace ++ t) :
    s2.trace.drop s.trace.length = t := by
  rw [h]; simp

theorem mem_pushes (t : List Call) (r : Event) (sz : Nat) :
    (r, sz) ∈ pushes t ↔ Call.ringbuf_output r sz ∈ t := by
  unfold pushes
  rw [List.mem_filterMap]
  constructor
  · rintro ⟨c, hc, hm⟩
    cases c <;> simp at hm
    obtain ⟨h1, h2⟩ := hm
    subst h1; subst h2
    exact hc
  · intro h
    exact ⟨_, h, rfl⟩

@[simp]
theorem pushes_filter_fnarg (p : Ptr) : pushes [Call.filter_fnarg p] = [] := rfl

@[simp]
theorem pushes_filters (p : Ptr) (sid : Nat) :
    pushes [Call.filter_fnarg p, Call.filter_pkt p sid] = [] := rfl

@[simp]
theorem pushes_ringbuf_output (r : Event) (sz : Nat) :
    pushes [Call.ringbuf_output r sz] = [(r, sz)] := rfl

@[simp]
theorem pushes_nil : pushes [] = [] := rfl

@[simp]
theorem pushes_cons_filter_fnarg (p : Ptr) (t : List Call) :
    pushes (Call.filter_fnarg p :: t) = pushes t := rfl

@[simp]
theorem pushes_cons_filter_pkt (p : Ptr) (sid : Nat) (t : List Call) :
    pushes (Call.filter_pkt p sid :: t) = pushes t := rfl

theorem pushes_new_calls (E : Env) (K : Kernel) (s : State) (ctx : Nat)
    (args : Option (List Nat)) (use_args : Bool) :
    pushes (new_calls E K s ctx args use_args) =
      if should_record E K s ctx args use_args then
        [(record_of E K s ctx args use_args, event_sz E)]
      else [] := by
  unfold new_calls should_record
  by_cases h1 : s.core.ready = 0
  · simp [h1]
  by_cases h2 : pid_ok E K
  swap
  · simp [h1, h2]
  by_cases h3 : (fnarg_res E K s (gate_ptr ctx args use_args)).1 = true
  swap
  · simp [h1, h2, h3]
  by_cases h4 : (pkt_res E K s (gate_ptr ctx args use_args)).1 = true
  swap
  · simp [h1, h2, h3, h4]
  simp [h1, h2, h3, h4]

theorem event_sz_eq (E : Env) (hfit : E.lay.fits)
    (hn : E.cfg.nr_fn_args ≤ E.lay.MAX_FN_ARGS) :
    event_sz E = E.lay.fn_data_offset + E.lay.fn_arg_data_size * E.cfg.nr_fn_args := by
  unfold Layout.fits at hfit
  have h1 : E.lay.fn_arg_data_size * E.cfg.nr_fn_args ≤
      E.lay.fn_arg_data_size * E.lay.MAX_FN_ARGS := Nat.mul_le_mul_left _ hn
  have h2 : E.lay.fn_arg_data_size * E.cfg.nr_fn_args < U64 := by omega
  have h3 : E.lay.fn_data_offset < U64 := by omega
  unfold event_sz
  rw [← Nat.mul_mod, Nat.mod_eq_of_lt h2, Nat.mod_eq_of_lt h3]
  exact Nat.mod_eq_of_lt (by omega)

theorem not_ready_returns (E : Env) (K : Kernel) (s : State) (ctx : Nat)
    (args : Option (List Nat)) (use_args : Bool) (h : s.core.ready = 0) :
    emit_btrace_event E K s ctx args use_args = some (BPF_OK, s) := by
  simp [emit_btrace_event, h]

/-- C1: when `ready` is 0, `emit_btrace_event` returns `BPF_OK` and the whole state is the
one it started from: the ring buffer, every per-CPU slot (lbr, str, pkt, arg, evt), the
stack table, and the call log, so that no helper, filter or capture routine has run.
This holds for every context, argument vector, `use_args` and configuration. -/
theorem emit_not_ready_noop (E : Env) (K : Kernel) (s : State) (ctx : Nat)
    (args : Option (List Nat)) (use_args : Bool) (h : s.core.ready = 0) :
    emit_btrace_event E K s ctx args use_args = some (BPF_OK, s) := by
  simp [emit_btrace_event, h]

/-- With `ready = 0` a tracepoint invocation under the all-features configuration leaves
the boot state as it is. -/
theorem emit_not_ready_noop_witness :
    (bootState 0).core.ready = 0 ∧
    emit_btrace_event fullEnv demoKernel (bootState 0) 5 (some [1, 2]) true =
      some (BPF_OK, bootState 0) :=
  ⟨rfl, emit_not_ready_noop fullEnv demoKernel (bootState 0) 5 (some [1, 2]) true rfl⟩

/-- C2: with a layout whose objects fit in `size_t` and a configured argument count in
`[0, MAX_FN_ARGS]`, the invocation returns, and every `bpf_ringbuf_output` call it makes
is given the size `offsetof(struct event, fn_data) + sizeof(struct btrace_fn_arg_data) *
nr_fn_args` exactly, with no wrap-around; when `nr_fn_args` is 0 that size is the header
size. -/
theorem emit_record_size (E : Env) (K : Kernel) (s : State) (ctx : Nat)
    (args : Option (List Nat)) (use_args : Bool) (hfit : E.lay.fits)
    (hn : E.cfg.nr_fn_args ≤ E.lay.MAX_FN_ARGS) (hb : s.inBounds (cur_cpu K)) :
    ∃ s2, emit_btrace_event E K s ctx args use_args = some (BPF_OK, s2) ∧
      ∀ r sz, Call.ringbuf_output r sz ∈ s2.trace.drop s.trace.length →
        sz = E.lay.fn_data_offset + E.lay.fn_arg_data_size * E.cfg.nr_fn_args ∧
        (E.cfg.nr_fn_args = 0 → sz = E.lay.fn_data_offset) := by
  obtain ⟨s2, he, ht⟩ := emit_trace E K s ctx args use_args hb
  refine ⟨s2, he, ?_⟩
  intro r sz hm
  rw [drop_trace s s2 _ ht, ← mem_pushes, pushes_new_calls] at hm
  have hsz : sz = event_sz E := by
    split_ifs at hm
    · simp at hm; exact hm.2
    · simp at hm
  rw [hsz, event_sz_eq E hfit hn]
  refine ⟨rfl, ?_⟩
  intro h0
  simp [h0]

/-- An accepted function-exit invocation with three configured arguments: every push it
makes has size `56 + 16 * 3`. -/
theorem emit_record_size_witness :
    ∃ s2, emit_btrace_event fullEnv demoKernel (bootState 1) 5 none false =
        some (BPF_OK, s2) ∧
      ∀ r sz, Call.ringbuf_output r sz ∈ s2.trace.drop (bootState 1).trace.length →
        sz = fullEnv.lay.fn_data_offset + fullEnv.lay.fn_arg_data_size * fullEnv.cfg.nr_fn_args ∧
        (fullEnv.cfg.nr_fn_args = 0 → sz = fullEnv.lay.fn_data_offset) :=
  emit_record_size fullEnv demoKernel (bootState 1) 5 none false (by decide) (by decide)
    (by decide)

theorem emit_some (E : Env) (K : Kernel) (s : State) (ctx : Nat) (args : Option (List Nat))
    (use_args : Bool) (hb : s.inBounds (cur_cpu K)) :
    ∃ s2, emit_btrace_event E K s ctx args use_args = some (BPF_OK, s2) := by
  obtain ⟨s2, h, _⟩ := emit_trace E K s ctx args use_args hb
  exact ⟨s2, h⟩

theorem emit_new_calls (E : Env) (K : Kernel) (s s2 : State) (ctx : Nat)
    (args : Option (List Nat)) (use_args : Bool) (r : Int) (hb : s.inBounds (cur_cpu K))
    (he : emit_btrace_event E K s ctx args use_args = some (r, s2)) :
    s2.trace.drop s.trace.length = new_calls E K s ctx args use_args := by
  obtain ⟨s3, h, ht⟩ := emit_trace E K s ctx args use_args hb
  rw [h] at he
  simp only [Option.some.injEq, Prod.mk.injEq] at he
  rw [← he.2]
  exact drop_trace s s3 _ ht

theorem emit_rejected_state (E : Env) (K : Kernel) (s s2 : State) (ctx : Nat)
    (args : Option (List Nat)) (use_args : Bool) (r : Int) (hb : s.inBounds (cur_cpu K))
    (hr : s.core.ready ≠ 0) (hrej : ¬ should_record E K s ctx args use_args)
    (he : emit_btrace_event E K s ctx args use_args = some (r, s2)) :
    s2.core = s.core ∧
    s2.scr =
      if ¬ pid_ok E K then scr_at_gate E K s
      else if (fnarg_res E K s (gate_ptr ctx args use_args)).1 = false then
        (fnarg_res E K s (gate_ptr ctx args use_args)).2
      else (pkt_res E K s (gate_ptr ctx args use_args)).2 := by
  rw [emit_eq E K s ctx args use_args hb] at he
  unfold should_record at hrej
  simp only [hr, if_false] at he
  by_cases h2 : pid_ok E K
  · by_cases h3 : (fnarg_res E K s (gate_ptr ctx args use_args)).1 = true
    · by_cases h4 : (pkt_res E K s (gate_ptr ctx args use_args)).1 = true
      · exact absurd ⟨hr, h2, h3, h4⟩ hrej
      · simp only [h2, h3, h4, not_true_eq_false, if_false, Bool.true_eq_false,
          Bool.not_eq_true, Option.some.injEq, Prod.mk.injEq] at he
        simp only [Bool.not_eq_true] at h4
        simp only [h4, if_true, Option.some.injEq, Prod.mk.injEq] at he
        obtain ⟨_, rfl⟩ := he
        simp [h2, h3, accepted_state]
    · simp only [Bool.not_eq_true] at h3
      simp only [h2, h3, not_true_eq_false, if_false, if_true, Option.some.injEq,
        Prod.mk.injEq] at he
      obtain ⟨_, rfl⟩ := he
      simp [h2, h3]
  · simp only [h2, not_false_eq_true, if_true, Option.some.injEq, Prod.mk.injEq] at he
    obtain ⟨_, rfl⟩ := he
    simp [h2]

theorem emit_accepted_state (E : Env) (K : Kernel) (s s2 : State) (ctx : Nat)
    (args : Option (List Nat)) (use_args : Bool) (r : Int) (hb : s.inBounds (cur_cpu K))
    (hrec : should_record E K s ctx args use_args)
    (he : emit_btrace_event E K s ctx args use_args = some (r, s2)) :
    s2 = ringbuf_output K (filled_state E K s ctx args use_args) (cur_cpu K) (event_sz E) := by
  rw [emit_eq E K s ctx args use_args hb] at he
  obtain ⟨h1, h2, h3, h4⟩ := hrec
  simp only [h1, h2, h3, h4, if_false, not_true_eq_false, Bool.true_eq_false,
    Option.some.injEq, Prod.mk.injEq] at he
  exact he.2.symm

theorem filter_fnarg_mem_new_calls (E : Env) (K : Kernel) (s : State) (ctx : Nat)
    (args : Option (List Nat)) (use_args : Bool) (q : Ptr)
    (h : Call.filter_fnarg q ∈ new_calls E K s ctx args use_args) :
    q = gate_ptr ctx args use_args := by
  unfold new_calls head_calls sid_calls fill_calls at h
  split_ifs at h <;> simp at h <;> exact h

theorem filter_pkt_mem_new_calls (E : Env) (K : Kernel) (s : State) (ctx : Nat)
    (args : Option (List Nat)) (use_args : Bool) (q : Ptr) (x : Nat)
    (h : Call.filter_pkt q x ∈ new_calls E K s ctx args use_args) :
    q = gate_ptr ctx args use_args ∧ x = sid_of K := by
  unfold new_calls head_calls sid_calls fill_calls at h
  split_ifs at h <;> simp at h <;> exact h

/-- C4: the invocation returns, and it calls `bpf_ringbuf_output` if and only if the four
gate predicates hold: `ready` is non-zero, the configured pid is 0 or equals the upper 32
bits of `bpf_get_current_pid_tgid`, `filter_fnarg` answers true, and `filter_pkt`, given
the session id, answers true. The filters are handed the argument vector when `use_args`
is true and the context otherwise, at most one record is submitted, and the ring buffer
grows by that record when it has room and is unchanged otherwise. -/
theorem emit_submits_iff_gate (E : Env) (K : Kernel) (s : State) (ctx : Nat)
    (args : Option (List Nat)) (use_args : Bool) (hb : s.inBounds (cur_cpu K)) :
    ∃ s2, emit_btrace_event E K s ctx args use_args = some (BPF_OK, s2) ∧
      ((∃ r sz, Call.ringbuf_output r sz ∈ s2.trace.drop s.trace.length) ↔
        (s.core.ready ≠ 0 ∧ (E.cfg.pid = 0 ∨ cur_pid K = E.cfg.pid) ∧
          (E.ext.filter_fnarg (scr_at_gate E K s)
            (if use_args then Ptr.args args else Ptr.ctx ctx)).1 = true ∧
          (E.ext.filter_pkt
            (E.ext.filter_fnarg (scr_at_gate E K s)
              (if use_args then Ptr.args args else Ptr.ctx ctx)).2
            (if use_args then Ptr.args args else Ptr.ctx ctx) (sid_of K)).1 = true)) ∧
      (pushes (s2.trace.drop s.trace.length)).length ≤ 1 ∧
      (∀ q, Call.filter_fnarg q ∈ s2.trace.drop s.trace.length →
        q = if use_args then Ptr.args args else Ptr.ctx ctx) ∧
      (∀ q x, Call.filter_pkt q x ∈ s2.trace.drop s.trace.length →
        (q = if use_args then Ptr.args args else Ptr.ctx ctx) ∧ x = sid_of K) ∧
      (s2.core.btrace_events = s.core.btrace_events ∨
        ∃ r sz, Call.ringbuf_output r sz ∈ s2.trace.drop s.trace.length ∧
          s2.core.btrace_events = s.core.btrace_events ++ [(r, sz)]) := by
  obtain ⟨s2, he⟩ := emit_some E K s ctx args use_args hb
  have hn := emit_new_calls E K s s2 ctx args use_args BPF_OK hb he
  have hp := pushes_new_calls E K s ctx args use_args
  refine ⟨s2, he, ?_, ?_, ?_, ?_, ?_⟩
  · rw [hn]
    constructor
    · rintro ⟨r, sz, hm⟩
      rw [← mem_pushes, hp] at hm
      by_cases hs : should_record E K s ctx args use_args
      · exact hs
      · simp [hs] at hm
    · intro hs
      have hs2 : should_record E K s ctx args use_args := hs
      refine ⟨record_of E K s ctx args use_args, event_sz E, ?_⟩
      rw [← mem_pushes, hp]
      simp [hs2]
  · rw [hn, hp]
    split_ifs <;> simp
  · intro q hq
    rw [hn] at hq
    exact filter_fnarg_mem_new_calls E K s ctx args use_args q hq
  · intro q x hq
    rw [hn] at hq
    exact filter_pkt_mem_new_calls E K s ctx args use_args q x hq
  · by_cases hs : should_record E K s ctx args use_args
    · have e := emit_accepted_state E K s s2 ctx args use_args BPF_OK hb hs he
      by_cases hroom : K.ringbuf_room s.core.btrace_events (event_sz E) = true
      · right
        refine ⟨record_of E K s ctx args use_args, event_sz E, ?_, ?_⟩
        · rw [hn, ← mem_pushes, hp]
          simp [hs]
        · rw [e, ringbuf_output_events, filled_state_events]
          simp [hroom, record_of]
      · left
        rw [e, ringbuf_output_events, filled_state_events]
        simp [hroom]
    · left
      by_cases hr : s.core.ready = 0
      · rw [not_ready_returns E K s ctx args use_args hr] at he
        simp only [Option.some.injEq, Prod.mk.injEq] at he
        rw [← he.2]
      · rw [(emit_rejected_state E K s s2 ctx args use_args BPF_OK hb hr hs he).1]

/-- An invocation on which all four gate predicates hold, and which pushes a record. -/
theorem emit_submits_iff_gate_witness :
    should_record fullEnv demoKernel (bootState 1) 5 none false ∧
    ∃ s2, emit_btrace_event fullEnv demoKernel (bootState 1) 5 none false =
        some (BPF_OK, s2) ∧
      (∃ r sz, Call.ringbuf_output r sz ∈ s2.trace.drop (bootState 1).trace.length) := by
  obtain ⟨s2, he, hiff, _⟩ :=
    emit_submits_iff_gate fullEnv demoKernel (bootState 1) 5 none false (by decide)
  exact ⟨by decide, s2, he, hiff.mpr (by decide)⟩

theorem should_record_new_calls (E : Env) (K : Kernel) (s : State) (ctx : Nat)
    (args : Option (List Nat)) (use_args : Bool)
    (hrec : should_record E K s ctx args use_args) :
    new_calls E K s ctx args use_args =
      head_calls E K ++ sid_calls K ++
        [Call.filter_fnarg (gate_ptr ctx args use_args),
         Call.filter_pkt (gate_ptr ctx args use_args) (sid_of K)] ++
        fill_calls E K ctx args use_args ++
        [Call.ringbuf_output (record_of E K s ctx args use_args) (event_sz E)] := by
  obtain ⟨h1, h2, h3, h4⟩ := hrec
  simp [new_calls, h1, h2, h3, h4]

/-- C5 (as stated) fails: with `ready` set, the pid filter unset, the four feature flags
off and accepting filters, but three configured arguments, the function-exit invocation
submits one record of 104 bytes, not of the 56-byte header size. -/
theorem fexit_plain_tail_counterexample :
    (bootState 1).core.ready ≠ 0 ∧ argsEnv.cfg.pid = 0 ∧
    argsEnv.cfg.output_lbr = false ∧ argsEnv.cfg.output_stack = false ∧
    argsEnv.cfg.output_pkt = false ∧ argsEnv.cfg.output_arg = false ∧
    (fnarg_res argsEnv demoKernel (bootState 1) (Ptr.ctx 5)).1 = true ∧
    (pkt_res argsEnv demoKernel (bootState 1) (Ptr.ctx 5)).1 = true ∧
    argsEnv.lay.fn_data_offset = 56 ∧
    (fexit_fn argsEnv demoKernel (bootState 1) 5).map
      (fun r => (pushes r.2.trace).map Prod.snd) = some [104] := by
  decide

/-- C5 (amended): given `ready` non-zero, the pid filter unset, the four feature flags
off, a configured argument count of 0 and filters that accept, a function-exit
invocation (`fexit_fn`) returns `BPF_OK` and submits exactly one record; its `func_ret` is
the value delivered by `bpf_get_func_ret`, its `func_stack_id` is -1 and its size is the
header size. `output_fn_data` is assumed to leave `func_ret` and `func_stack_id` alone. -/
theorem fexit_plain_record (E : Env) (K : Kernel) (s : State) (ctx v : Nat)
    (hr : s.core.ready ≠ 0) (hpid : E.cfg.pid = 0)
    (_hl : E.cfg.output_lbr = false) (hs : E.cfg.output_stack = false)
    (_hp : E.cfg.output_pkt = false) (_ha : E.cfg.output_arg = false)
    (hn : E.cfg.nr_fn_args = 0) (hoff : E.lay.fn_data_offset < U64)
    (hf1 : (fnarg_res E K s (Ptr.ctx ctx)).1 = true)
    (hf2 : (pkt_res E K s (Ptr.ctx ctx)).1 = true)
    (hb : s.inBounds (cur_cpu K))
    (hret : K.func_ret ctx = some v) (hv : v < U64)
    (hkeep : ∀ scr e c r i, (E.ext.output_fn_data scr e c r i).1.func_ret = e.func_ret ∧
      (E.ext.output_fn_data scr e c r i).1.func_stack_id = e.func_stack_id) :
    ∃ s2 rec, fexit_fn E K s ctx = some (BPF_OK, s2) ∧
      pushes (s2.trace.drop s.trace.length) = [(rec, E.lay.fn_data_offset)] ∧
      rec.func_ret = v ∧ rec.func_stack_id = -1 ∧
      (K.ringbuf_room s.core.btrace_events E.lay.fn_data_offset = true →
        s2.core.btrace_events = s.core.btrace_events ++ [(rec, E.lay.fn_data_offset)]) := by
  have hrec : should_record E K s ctx none false := ⟨hr, Or.inl hpid, hf1, hf2⟩
  obtain ⟨s2, he⟩ := emit_some E K s ctx none false hb
  have hnew := emit_new_calls E K s s2 ctx none false BPF_OK hb he
  have hst := emit_accepted_state E K s s2 ctx none false BPF_OK hb hrec he
  have hsz : event_sz E = E.lay.fn_data_offset := by
    simp [event_sz, hn, Nat.mod_eq_of_lt hoff]
  have hrecord := record_of_eq E K s ctx none false hb.2.2.2.2
  simp only [Bool.false_eq_true, if_false] at hrecord
  refine ⟨s2, record_of E K s ctx none false, he, ?_, ?_, ?_, ?_⟩
  · rw [hnew, pushes_new_calls, if_pos hrec, hsz]
  · rw [hrecord, (hkeep _ _ _ _ _).1]
    simp [header_of, retval_of, hret, Nat.mod_eq_of_lt hv]
  · rw [hrecord, (hkeep _ _ _ _ _).2]
    simp [header_of, hs]
  · intro hroom
    rw [hst, ringbuf_output_events, filled_state_events, hsz]
    simp [hroom, record_of]

/-- The plain configuration on the boot state: one 56-byte record with `func_ret = 42`
and `func_stack_id = -1`. -/
theorem fexit_plain_record_witness :
    ∃ s2 rec, fexit_fn plainEnv demoKernel (bootState 1) 5 = some (BPF_OK, s2) ∧
      pushes (s2.trace.drop (bootState 1).trace.length) = [(rec, 56)] ∧
      rec.func_ret = 42 ∧ rec.func_stack_id = -1 ∧
      (demoKernel.ringbuf_room (bootState 1).core.btrace_events 56 = true →
        s2.core.btrace_events = (bootState 1).core.btrace_events ++ [(rec, 56)]) :=
  fexit_plain_record plainEnv demoKernel (bootState 1) 5 42 (by decide) rfl rfl rfl rfl rfl
    rfl (by decide) (by decide) (by decide) (by decide) rfl (by decide)
    (fun _ _ _ _ _ => ⟨rfl, rfl⟩)

/-- C6: on a CPU `c` inside the bounds of the per-CPU arrays the invocation completes
with `BPF_OK`, whatever the state of the ring buffer; at most one push is attempted (no
retry); when the ring buffer has no room for the record its content is unchanged; every
slot of `btrace_evt_buff` at an index other than `c` is unchanged; and, the header
routines writing the scratch arrays only at index `c`, so is every slot of the `lbr`,
`str`, `pkt` and `arg` arrays at an index other than `c`. -/
theorem emit_frame (E : Env) (K : Kernel) (s : State) (ctx : Nat)
    (args : Option (List Nat)) (use_args : Bool) (hb : s.inBounds (cur_cpu K)) :
    ∃ s2, emit_btrace_event E K s ctx args use_args = some (BPF_OK, s2) ∧
      (pushes (s2.trace.drop s.trace.length)).length ≤ 1 ∧
      (K.ringbuf_room s.core.btrace_events (event_sz E) = false →
        s2.core.btrace_events = s.core.btrace_events) ∧
      (∀ i, i ≠ cur_cpu K → s2.core.evt[i]? = s.core.evt[i]?) ∧
      (E.ext.local (cur_cpu K) → ∀ i, i ≠ cur_cpu K →
        s2.scr.lbr[i]? = s.scr.lbr[i]? ∧ s2.scr.str[i]? = s.scr.str[i]? ∧
        s2.scr.pkt[i]? = s.scr.pkt[i]? ∧ s2.scr.arg[i]? = s.scr.arg[i]?) := by
  obtain ⟨s2, he⟩ := emit_some E K s ctx args use_args hb
  have hnew := emit_new_calls E K s s2 ctx args use_args BPF_OK hb he
  refine ⟨s2, he, ?_, ?_, ?_, ?_⟩
  · rw [hnew, pushes_new_calls]
    split_ifs <;> simp
  · intro hfull
    by_cases hr : s.core.ready = 0
    · rw [not_ready_returns E K s ctx args use_args hr] at he
      simp only [Option.some.injEq, Prod.mk.injEq] at he
      rw [← he.2]
    · by_cases hs : should_record E K s ctx args use_args
      · have e := emit_accepted_state E K s s2 ctx args use_args BPF_OK hb hs he
        rw [e, ringbuf_output_events, filled_state_events]
        simp [hfull]
      · rw [(emit_rejected_state E K s s2 ctx args use_args BPF_OK hb hr hs he).1]
  · by_cases hr : s.core.ready = 0
    · rw [not_ready_returns E K s ctx args use_args hr] at he
      simp only [Option.some.injEq, Prod.mk.injEq] at he
      rw [← he.2]
      intro i _
      rfl
    · by_cases hs : should_record E K s ctx args use_args
      · have e := emit_accepted_state E K s s2 ctx args use_args BPF_OK hb hs he
        intro i hi
        rw [e, ringbuf_output_evt]
        exact filled_state_evt_ne E K s ctx args use_args i hi
      · intro i _
        rw [(emit_rejected_state E K s s2 ctx args use_args BPF_OK hb hr hs he).1]
  · intro hloc
    by_cases hr : s.core.ready = 0
    · rw [not_ready_returns E K s ctx args use_args hr] at he
      simp only [Option.some.injEq, Prod.mk.injEq] at he
      rw [← he.2]
      intro i _
      exact ⟨rfl, rfl, rfl, rfl⟩
    · by_cases hs : should_record E K s ctx args use_args
      · have e := emit_accepted_state E K s s2 ctx args use_args BPF_OK hb hs he
        intro i hi
        rw [e, ringbuf_output_scr]
        exact filled_state_scr_frame E K s ctx args use_args hloc i hi
      · obtain ⟨_, hscr⟩ := emit_rejected_state E K s s2 ctx args use_args BPF_OK hb hr hs he
        intro i hi
        rw [hscr]
        split_ifs
        · exact fnarg_res_frame E K s _ hloc i hi
        · exact pkt_res_frame E K s _ hloc i hi
        · exact scr_at_gate_frame E K s i hi

/-- An accepted invocation on CPU 1 with a full ring buffer: it returns `BPF_OK`, the
ring buffer is unchanged and so are the slots of CPU 0. -/
theorem emit_frame_witness :
    should_record fullEnv fullKernel (bootState 1) 5 none false ∧
    ∃ s2, emit_btrace_event fullEnv fullKernel (bootState 1) 5 none false =
        some (BPF_OK, s2) ∧
      s2.core.btrace_events = (bootState 1).core.btrace_events ∧
      s2.core.evt[0]? = (bootState 1).core.evt[0]? ∧
      s2.scr.lbr[0]? = (bootState 1).scr.lbr[0]? ∧
      s2.scr.str[0]? = (bootState 1).scr.str[0]? ∧
      s2.scr.pkt[0]? = (bootState 1).scr.pkt[0]? ∧
      s2.scr.arg[0]? = (bootState 1).scr.arg[0]? := by
  obtain ⟨s2, he, _, hfull, hevt, hscr⟩ :=
    emit_frame fullEnv fullKernel (bootState 1) 5 none false (by decide)
  have h := hscr (demoExt_local _) 0 (by decide)
  exact ⟨by decide, s2, he, hfull rfl, hevt 0 (by decide), h.1, h.2.1, h.2.2.1, h.2.2.2⟩

/-- C7 (as stated) fails: from the zeroed boot state, a function-exit invocation with
return value 42 followed by a tracepoint invocation on the same CPU submits two records,
and the tracepoint record carries `func_ret = 42`, the value the exit path left in the
event slot, not zero. -/
theorem tp_func_ret_counterexample :
    ((fexit_fn plainEnv demoKernel (bootState 1) 5).bind
        (fun r => tp_btf_fn plainEnv demoKernel r.2 6)).map
      (fun r => (pushes r.2.trace).map (fun p => p.1.func_ret)) = some [42, 42] := by
  decide

/-- C7 (amended): a tracepoint-shaped invocation (`handle_tp_event`) that emits a record
does not assign `func_ret`: the emitted record carries the `func_ret` that the CPU's
event slot held before the invocation, hence zero when the slot held zero.
`output_fn_data_vol` is assumed to leave `func_ret` alone. -/
theorem tp_func_ret_kept (E : Env) (K : Kernel) (s : State) (ctx : Nat)
    (args : Option (List Nat)) (hb : s.inBounds (cur_cpu K))
    (hrec : should_record E K s ctx args true)
    (hkeep : ∀ scr e c a, (E.ext.output_fn_data_vol scr e c a).1.func_ret = e.func_ret) :
    ∃ s2 rec, handle_tp_event E K s ctx args = some (BPF_OK, s2) ∧
      pushes (s2.trace.drop s.trace.length) = [(rec, event_sz E)] ∧
      rec.func_ret = (s.evtAt (cur_cpu K)).func_ret ∧
      ((s.evtAt (cur_cpu K)).func_ret = 0 → rec.func_ret = 0) := by
  obtain ⟨s2, he⟩ := emit_some E K s ctx args true hb
  have hnew := emit_new_calls E K s s2 ctx args true BPF_OK hb he
  have hrecord := record_of_eq E K s ctx args true hb.2.2.2.2
  simp only [if_true] at hrecord
  have hfr : (record_of E K s ctx args true).func_ret = (s.evtAt (cur_cpu K)).func_ret := by
    rw [hrecord, hkeep]
    simp [header_of]
  refine ⟨s2, record_of E K s ctx args true, he, ?_, hfr, ?_⟩
  · rw [hnew, pushes_new_calls, if_pos hrec]
  · intro h0
    rw [hfr, h0]

/-- A tracepoint invocation on the zeroed boot state: the record carries the `func_ret`
of the slot, which is zero. -/
theorem tp_func_ret_kept_witness :
    ∃ s2 rec, handle_tp_event plainEnv demoKernel (bootState 1) 6 (some [1, 2]) =
        some (BPF_OK, s2) ∧
      pushes (s2.trace.drop (bootState 1).trace.length) = [(rec, event_sz plainEnv)] ∧
      rec.func_ret = ((bootState 1).evtAt (cur_cpu demoKernel)).func_ret ∧
      (((bootState 1).evtAt (cur_cpu demoKernel)).func_ret = 0 → rec.func_ret = 0) :=
  tp_func_ret_kept plainEnv demoKernel (bootState 1) 6 (some [1, 2]) (by decide) (by decide)
    (fun _ _ _ _ => rfl)

theorem new_calls_pid (E : Env) (K : Kernel) (s : State) (ctx : Nat)
    (args : Option (List Nat)) (use_args : Bool) (hr : s.core.ready ≠ 0)
    (hp : ¬ pid_ok E K) :
    new_calls E K s ctx args use_args = head_calls E K := by
  simp [new_calls, hr, hp]

theorem new_calls_fnarg (E : Env) (K : Kernel) (s : State) (ctx : Nat)
    (args : Option (List Nat)) (use_args : Bool) (hr : s.core.ready ≠ 0)
    (hp : pid_ok E K) (hf : (fnarg_res E K s (gate_ptr ctx args use_args)).1 = false) :
    new_calls E K s ctx args use_args =
      head_calls E K ++ sid_calls K ++ [Call.filter_fnarg (gate_ptr ctx args use_args)] := by
  simp [new_calls, hr, hp, hf]

theorem new_calls_pkt (E : Env) (K : Kernel) (s : State) (ctx : Nat)
    (args : Option (List Nat)) (use_args : Bool) (hr : s.core.ready ≠ 0)
    (hp : pid_ok E K) (hf : (fnarg_res E K s (gate_ptr ctx args use_args)).1 = true)
    (hk : (pkt_res E K s (gate_ptr ctx args use_args)).1 = false) :
    new_calls E K s ctx args use_args =
      head_calls E K ++ sid_calls K ++
        [Call.filter_fnarg (gate_ptr ctx args use_args),
         Call.filter_pkt (gate_ptr ctx args use_args) (sid_of K)] := by
  simp [new_calls, hr, hp, hf, hk]

theorem rejected_cases (E : Env) (K : Kernel) (s : State) (ctx : Nat)
    (args : Option (List Nat)) (use_args : Bool) (hr : s.core.ready ≠ 0)
    (hrej : ¬ should_record E K s ctx args use_args) :
    ¬ pid_ok E K ∨
    (pid_ok E K ∧ (fnarg_res E K s (gate_ptr ctx args use_args)).1 = false) ∨
    (pid_ok E K ∧ (fnarg_res E K s (gate_ptr ctx args use_args)).1 = true ∧
      (pkt_res E K s (gate_ptr ctx args use_args)).1 = false) := by
  by_cases hp : pid_ok E K
  · right
    by_cases hf : (fnarg_res E K s (gate_ptr ctx args use_args)).1 = true
    · right
      refine ⟨hp, hf, ?_⟩
      by_contra hk
      exact hrej ⟨hr, hp, hf, by simpa using hk⟩
    · left
      exact ⟨hp, by simpa using hf⟩
  · exact Or.inl hp

theorem new_calls_head (E : Env) (K : Kernel) (s : State) (ctx : Nat)
    (args : Option (List Nat)) (use_args : Bool) (hr : s.core.ready ≠ 0) :
    ∃ t, new_calls E K s ctx args use_args = head_calls E K ++ t := by
  by_cases hs : should_record E K s ctx args use_args
  · rw [should_record_new_calls E K s ctx args use_args hs]
    exact ⟨_, List.append_assoc _ _ _ |>.trans (List.append_assoc _ _ _) |>.trans (List.append_assoc _ _ _)⟩
  · rcases rejected_cases E K s ctx args use_args hr hs with hp | ⟨hp, hf⟩ | ⟨hp, hf, hk⟩
    · rw [new_calls_pid E K s ctx args use_args hr hp]
      exact ⟨[], by simp⟩
    · rw [new_calls_fnarg E K s ctx args use_args hr hp hf]
      exact ⟨_, List.append_assoc _ _ _⟩
    · rw [new_calls_pkt E K s ctx args use_args hr hp hf hk]
      exact ⟨_, List.append_assoc _ _ _⟩

theorem scr_at_gate_lbr (E : Env) (K : Kernel) (s : State) (hl : E.cfg.output_lbr = true)
    (h : cur_cpu K < s.scr.lbr.length) :
    (scr_at_gate E K s).lbr[cur_cpu K]? = some (lbr_snapshot K s) := by
  rw [scr_at_gate_eq]
  simp [hl, h]

theorem isCapture_head_calls (E : Env) (K : Kernel) :
    ∀ c ∈ head_calls E K, c.isCapture = false := by
  intro c hc
  unfold head_calls at hc
  by_cases hl : E.cfg.output_lbr = true
  · simp [hl] at hc
    rcases hc with h | h | h <;> subst h <;> rfl
  · simp [hl] at hc
    rcases hc with h | h <;> subst h <;> rfl

theorem isCapture_sid_calls (K : Kernel) : ∀ c ∈ sid_calls K, c.isCapture = false := by
  intro c hc
  unfold sid_calls at hc
  simp at hc
  rcases hc with h | h | h <;> subst h <;> rfl

/-- C8: with `ready` non-zero and branch capture enabled, the invocation returns, and its
calls begin with the processor-id read, then `bpf_get_branch_snapshot` into the CPU's
`lbr` slot, then the pid read: the snapshot precedes the pid check, the session id
generation and both filters. When the pid gate rejects, the scratch state is the old one
with the snapshot in the `lbr` slot; when any gate rejects and the filters leave the
`lbr` array alone, the `lbr` slot holds the snapshot. -/
theorem emit_snapshot_first (E : Env) (K : Kernel) (s : State) (ctx : Nat)
    (args : Option (List Nat)) (use_args : Bool) (hr : s.core.ready ≠ 0)
    (hl : E.cfg.output_lbr = true) (hb : s.inBounds (cur_cpu K)) :
    ∃ s2 t, emit_btrace_event E K s ctx args use_args = some (BPF_OK, s2) ∧
      s2.trace.drop s.trace.length =
        Call.get_smp_processor_id :: Call.get_branch_snapshot (cur_cpu K) ::
          Call.get_current_pid_tgid :: t ∧
      (¬ pid_ok E K →
        t = [] ∧
        s2.scr = { s.scr with lbr := s.scr.lbr.set (cur_cpu K) (lbr_snapshot K s) }) ∧
      (E.ext.filters_keep_lbr → ¬ should_record E K s ctx args use_args →
        s2.scr.lbr[cur_cpu K]? = some (lbr_snapshot K s)) := by
  obtain ⟨s2, he⟩ := emit_some E K s ctx args use_args hb
  have hnew := emit_new_calls E K s s2 ctx args use_args BPF_OK hb he
  obtain ⟨t, ht⟩ := new_calls_head E K s ctx args use_args hr
  have hh : head_calls E K = [Call.get_smp_processor_id,
      Call.get_branch_snapshot (cur_cpu K), Call.get_current_pid_tgid] := by
    simp [head_calls, hl]
  refine ⟨s2, t, he, ?_, ?_, ?_⟩
  · rw [hnew, ht, hh]
    rfl
  · intro hp
    have hrej : ¬ should_record E K s ctx args use_args := fun h => hp h.2.1
    obtain ⟨_, hscr⟩ := emit_rejected_state E K s s2 ctx args use_args BPF_OK hb hr hrej he
    constructor
    · have h2 := new_calls_pid E K s ctx args use_args hr hp
      rw [h2] at ht
      have h3 := congrArg List.length ht
      simp only [List.length_append] at h3
      exact List.eq_nil_of_length_eq_zero (by omega)
    · rw [hscr, if_pos hp, scr_at_gate_eq]
      simp [hl]
  · intro hk hrej
    obtain ⟨_, hscr⟩ := emit_rejected_state E K s s2 ctx args use_args BPF_OK hb hr hrej he
    have h0 := scr_at_gate_lbr E K s hl hb.1
    have h1 : (fnarg_res E K s (gate_ptr ctx args use_args)).2.lbr =
        (scr_at_gate E K s).lbr := hk.1 _ _
    have h2 : (pkt_res E K s (gate_ptr ctx args use_args)).2.lbr =
        (scr_at_gate E K s).lbr := (hk.2 _ _ _).trans h1
    rw [hscr]
    split_ifs
    · rw [h1]; exact h0
    · rw [h2]; exact h0
    · exact h0

/-- An invocation that `filter_fnarg` rejects (context 13), with branch capture enabled. -/
theorem emit_snapshot_first_witness :
    ¬ should_record fullEnv demoKernel (bootState 1) 13 none false ∧
    ∃ s2 t, emit_btrace_event fullEnv demoKernel (bootState 1) 13 none false =
        some (BPF_OK, s2) ∧
      s2.trace.drop (bootState 1).trace.length =
        Call.get_smp_processor_id :: Call.get_branch_snapshot (cur_cpu demoKernel) ::
          Call.get_current_pid_tgid :: t ∧
      (¬ pid_ok fullEnv demoKernel →
        t = [] ∧
        s2.scr = { (bootState 1).scr with
          lbr := (bootState 1).scr.lbr.set (cur_cpu demoKernel)
            (lbr_snapshot demoKernel (bootState 1)) }) ∧
      (fullEnv.ext.filters_keep_lbr →
        ¬ should_record fullEnv demoKernel (bootState 1) 13 none false →
        s2.scr.lbr[cur_cpu demoKernel]? = some (lbr_snapshot demoKernel (bootState 1))) :=
  ⟨by decide,
    emit_snapshot_first fullEnv demoKernel (bootState 1) 13 none false (by decide) rfl
      (by decide)⟩

/-- C9: when a gate predicate rejects, the invocation returns `BPF_OK` with the globals
of `btrace.c` untouched (event slots, stack table, ring buffer), and none of its calls is
a capture or push call. With `ready` set: on a pid mismatch the calls end with the pid
read (no session id, no filter); when `filter_fnarg` answers false the last call is
`filter_fnarg` (no `filter_pkt`); otherwise the last call is `filter_pkt`. The scratch
state is the one the evaluated filters left, starting from the old scratch state in which
only the `lbr` slot of this CPU has been replaced, by the snapshot, when branch capture
is enabled. -/
theorem emit_rejected_frame (E : Env) (K : Kernel) (s : State) (ctx : Nat)
    (args : Option (List Nat)) (use_args : Bool)
    (hb : s.inBounds (cur_cpu K)) (hrej : ¬ should_record E K s ctx args use_args) :
    ∃ s2, emit_btrace_event E K s ctx args use_args = some (BPF_OK, s2) ∧
      s2.core = s.core ∧
      (∀ c ∈ s2.trace.drop s.trace.length, c.isCapture = false) ∧
      (s.core.ready ≠ 0 → ¬ pid_ok E K →
        s2.trace.drop s.trace.length = head_calls E K ∧ s2.scr = scr_at_gate E K s) ∧
      (s.core.ready ≠ 0 → pid_ok E K →
        (fnarg_res E K s (gate_ptr ctx args use_args)).1 = false →
        s2.trace.drop s.trace.length =
          head_calls E K ++ sid_calls K ++ [Call.filter_fnarg (gate_ptr ctx args use_args)] ∧
        s2.scr = (E.ext.filter_fnarg (scr_at_gate E K s) (gate_ptr ctx args use_args)).2) ∧
      (s.core.ready ≠ 0 → pid_ok E K →
        (fnarg_res E K s (gate_ptr ctx args use_args)).1 = true →
        s2.trace.drop s.trace.length =
          head_calls E K ++ sid_calls K ++
            [Call.filter_fnarg (gate_ptr ctx args use_args),
             Call.filter_pkt (gate_ptr ctx args use_args) (sid_of K)] ∧
        s2.scr = (E.ext.filter_pkt
          (E.ext.filter_fnarg (scr_at_gate E K s) (gate_ptr ctx args use_args)).2
          (gate_ptr ctx args use_args) (sid_of K)).2) ∧
      scr_at_gate E K s =
        (if E.cfg.output_lbr then
          { s.scr with lbr := s.scr.lbr.set (cur_cpu K) (lbr_snapshot K s) }
        else s.scr) := by
  obtain ⟨s2, he⟩ := emit_some E K s ctx args use_args hb
  have hnew := emit_new_calls E K s s2 ctx args use_args BPF_OK hb he
  have hst : ∀ hr : s.core.ready ≠ 0, _ :=
    fun hr => emit_rejected_state E K s s2 ctx args use_args BPF_OK hb hr hrej he
  refine ⟨s2, he, ?_, ?_, ?_, ?_, ?_, scr_at_gate_eq E K s⟩
  · by_cases hr : s.core.ready = 0
    · rw [not_ready_returns E K s ctx args use_args hr] at he
      simp only [Option.some.injEq, Prod.mk.injEq] at he
      rw [← he.2]
    · exact (hst hr).1
  · intro c hm
    rw [hnew] at hm
    have hcap1 := isCapture_head_calls E K
    have hcap2 := isCapture_sid_calls K
    by_cases hr : s.core.ready = 0
    · simp [new_calls, hr] at hm
    rcases rejected_cases E K s ctx args use_args hr hrej with hp | ⟨hp, hf⟩ | ⟨hp, hf, hk⟩
    · rw [new_calls_pid E K s ctx args use_args hr hp] at hm
      exact hcap1 c hm
    · rw [new_calls_fnarg E K s ctx args use_args hr hp hf] at hm
      simp only [List.mem_append, List.mem_singleton] at hm
      rcases hm with (h | h) | h
      · exact hcap1 c h
      · exact hcap2 c h
      · subst h; rfl
    · rw [new_calls_pkt E K s ctx args use_args hr hp hf hk] at hm
      simp only [List.mem_append, List.mem_cons, List.mem_singleton, List.not_mem_nil,
        or_false] at hm
      rcases hm with (h | h) | h | h
      · exact hcap1 c h
      · exact hcap2 c h
      · subst h; rfl
      · subst h; rfl
  · intro hr hp
    exact ⟨by rw [hnew, new_calls_pid E K s ctx args use_args hr hp],
      by rw [(hst hr).2, if_pos hp]⟩
  · intro hr hp hf
    refine ⟨by rw [hnew, new_calls_fnarg E K s ctx args use_args hr hp hf], ?_⟩
    rw [(hst hr).2, if_neg (not_not.mpr hp), if_pos hf]
    rfl
  · intro hr hp hf
    have hk : (pkt_res E K s (gate_ptr ctx args use_args)).1 = false := by
      by_contra hk
      exact hrej ⟨hr, hp, hf, by simpa using hk⟩
    refine ⟨by rw [hnew, new_calls_pkt E K s ctx args use_args hr hp hf hk], ?_⟩
    rw [(hst hr).2, if_neg (not_not.mpr hp), if_neg (by simp [hf])]
    rfl

/-- A pid mismatch on the two-CPU boot state: the globals are untouched and the calls
are the head calls only; the `lbr` slot of CPU 1 holds the snapshot. -/
theorem emit_rejected_frame_witness :
    ¬ should_record otherPidEnv demoKernel (bootState 1) 5 none false ∧
    ∃ s2, emit_btrace_event otherPidEnv demoKernel (bootState 1) 5 none false =
        some (BPF_OK, s2) ∧
      s2.core = (bootState 1).core ∧
      s2.trace.drop (bootState 1).trace.length = head_calls otherPidEnv demoKernel ∧
      s2.scr.lbr = [⟨[], 0⟩, ⟨[7, 8], 16⟩] := by
  obtain ⟨s2, he, hc, _, hp, _⟩ :=
    emit_rejected_frame otherPidEnv demoKernel (bootState 1) 5 none false
      (by decide) (by decide)
  have h := hp (by decide) (by decide)
  refine ⟨by decide, s2, he, hc, h.1, ?_⟩
  rw [h.2]
  decide

theorem count_prandom_head_calls (E : Env) (K : Kernel) :
    (head_calls E K).count Call.get_prandom_u32 = 0 := by
  unfold head_calls
  by_cases hl : E.cfg.output_lbr = true <;> simp [hl, List.count_cons]

theorem count_prandom_sid_calls (K : Kernel) :
    (sid_calls K).count Call.get_prandom_u32 = 1 := by
  simp [sid_calls, List.count_cons]

theorem count_prandom_fill_calls (E : Env) (K : Kernel) (ctx : Nat)
    (args : Option (List Nat)) (use_args : Bool) :
    (fill_calls E K ctx args use_args).count Call.get_prandom_u32 = 0 := by
  unfold fill_calls
  simp only [List.count_append]
  cases use_args <;> simp [List.count_cons] <;> split_ifs <;> simp

theorem tags_fill_calls (E : Env) (K : Kernel) (ctx : Nat)
    (args : Option (List Nat)) (use_args : Bool) :
    (∀ i x, Call.output_lbr_data i x ∈ fill_calls E K ctx args use_args → x = sid_of K) ∧
    (∀ q i x, Call.output_pkt_tuple q i x ∈ fill_calls E K ctx args use_args →
      q = gate_ptr ctx args use_args ∧ x = sid_of K) ∧
    (∀ q i x, Call.output_arg_data q i x ∈ fill_calls E K ctx args use_args →
      q = gate_ptr ctx args use_args ∧ x = sid_of K) ∧
    (∀ q x, Call.filter_pkt q x ∉ fill_calls E K ctx args use_args) := by
  unfold fill_calls
  refine ⟨?_, ?_, ?_, ?_⟩
  · intro i x h
    cases use_args <;> simp at h <;> exact h.2.2
  · intro q i x h
    cases use_args <;> simp at h <;> exact ⟨h.2.1, h.2.2.2⟩
  · intro q i x h
    cases use_args <;> simp at h <;> exact ⟨h.2.1, h.2.2.2⟩
  · intro q x h
    cases use_args <;> simp at h

theorem enabled_fill_calls (E : Env) (K : Kernel) (ctx : Nat)
    (args : Option (List Nat)) (use_args : Bool) :
    (E.cfg.output_lbr = true →
      Call.output_lbr_data (cur_cpu K) (sid_of K) ∈ fill_calls E K ctx args use_args) ∧
    (E.cfg.output_pkt = true →
      Call.output_pkt_tuple (gate_ptr ctx args use_args) (cur_cpu K) (sid_of K) ∈
        fill_calls E K ctx args use_args) ∧
    (E.cfg.output_arg = true →
      Call.output_arg_data (gate_ptr ctx args use_args) (cur_cpu K) (sid_of K) ∈
        fill_calls E K ctx args use_args) := by
  unfold fill_calls
  refine ⟨?_, ?_, ?_⟩ <;> intro h <;> simp [h]

/-- C10: on an invocation that emits a record, the calls are, in order, the head calls,
the calls of `gen_session_id` (among all calls exactly one `bpf_get_prandom_u32`), the
two filters, the fill calls and the push. The one session id is the value given to
`filter_pkt`, the `session_id` field of the pushed record, and the tag given to
`output_lbr_data`, `output_pkt_tuple` and `output_arg_data`, each of which is called when
its flag is set, on both invocation shapes. For the record field, `output_fn_data` and
`output_fn_data_vol` are taken to leave `session_id` alone. -/
theorem emit_session_id_once (E : Env) (K : Kernel) (s : State) (ctx : Nat)
    (args : Option (List Nat)) (use_args : Bool) (hb : s.inBounds (cur_cpu K))
    (hrec : should_record E K s ctx args use_args) :
    ∃ s2 rec, emit_btrace_event E K s ctx args use_args = some (BPF_OK, s2) ∧
      s2.trace.drop s.trace.length =
        head_calls E K ++ sid_calls K ++
          [Call.filter_fnarg (gate_ptr ctx args use_args),
           Call.filter_pkt (gate_ptr ctx args use_args) (sid_of K)] ++
          fill_calls E K ctx args use_args ++ [Call.ringbuf_output rec (event_sz E)] ∧
      (gen_session_id K s).1 = sid_of K ∧
      (((∀ scr e c a, (E.ext.output_fn_data_vol scr e c a).1.session_id = e.session_id) ∧
          (∀ scr e c r i, (E.ext.output_fn_data scr e c r i).1.session_id = e.session_id)) →
        rec.session_id = sid_of K) ∧
      (s2.trace.drop s.trace.length).count Call.get_prandom_u32 = 1 ∧
      (∀ q x, Call.filter_pkt q x ∈ s2.trace.drop s.trace.length → x = sid_of K) ∧
      (∀ i x, Call.output_lbr_data i x ∈ s2.trace.drop s.trace.length → x = sid_of K) ∧
      (∀ q i x, Call.output_pkt_tuple q i x ∈ s2.trace.drop s.trace.length → x = sid_of K) ∧
      (∀ q i x, Call.output_arg_data q i x ∈ s2.trace.drop s.trace.length → x = sid_of K) ∧
      (E.cfg.output_lbr = true →
        Call.output_lbr_data (cur_cpu K) (sid_of K) ∈ s2.trace.drop s.trace.length) ∧
      (E.cfg.output_pkt = true →
        Call.output_pkt_tuple (gate_ptr ctx args use_args) (cur_cpu K) (sid_of K) ∈
          s2.trace.drop s.trace.length) ∧
      (E.cfg.output_arg = true →
        Call.output_arg_data (gate_ptr ctx args use_args) (cur_cpu K) (sid_of K) ∈
          s2.trace.drop s.trace.length) := by
  obtain ⟨s2, he⟩ := emit_some E K s ctx args use_args hb
  have hnew0 := emit_new_calls E K s s2 ctx args use_args BPF_OK hb he
  have hnew := hnew0
  rw [should_record_new_calls E K s ctx args use_args hrec] at hnew
  have hrecord := record_of_eq E K s ctx args use_args hb.2.2.2.2
  obtain ⟨t1, t2, t3, _⟩ := tags_fill_calls E K ctx args use_args
  obtain ⟨e1, e2, e3⟩ := enabled_fill_calls E K ctx args use_args
  have hh1 := isCapture_head_calls E K
  have hh2 := isCapture_sid_calls K
  refine ⟨s2, record_of E K s ctx args use_args, he, hnew, ?_, ?_, ?_, ?_, ?_, ?_, ?_, ?_,
    ?_, ?_⟩
  · rw [gen_session_id_eq]
  · intro hkeep
    rw [hrecord]
    cases use_args
    · simp only [Bool.false_eq_true, if_false]
      rw [hkeep.2]
      rfl
    · simp only [if_true]
      rw [hkeep.1]
      rfl
  · rw [hnew]
    simp only [List.count_append, count_prandom_head_calls, count_prandom_sid_calls,
      count_prandom_fill_calls]
    simp [List.count_cons]
  · intro q x h
    rw [hnew0] at h
    exact (filter_pkt_mem_new_calls E K s ctx args use_args q x h).2
  · intro i x h
    rw [hnew] at h
    simp only [List.mem_append, List.mem_cons, List.mem_singleton, List.not_mem_nil,
      or_false] at h
    rcases h with (((h | h) | h) | h) | h
    · exact absurd (hh1 _ h) (by simp [Call.isCapture])
    · exact absurd (hh2 _ h) (by simp [Call.isCapture])
    · rcases h with h | h <;> cases h
    · exact t1 i x h
    · cases h
  · intro q i x h
    rw [hnew] at h
    simp only [List.mem_append, List.mem_cons, List.mem_singleton, List.not_mem_nil,
      or_false] at h
    rcases h with (((h | h) | h) | h) | h
    · exact absurd (hh1 _ h) (by simp [Call.isCapture])
    · exact absurd (hh2 _ h) (by simp [Call.isCapture])
    · rcases h with h | h <;> cases h
    · exact (t2 q i x h).2
    · cases h
  · intro q i x h
    rw [hnew] at h
    simp only [List.mem_append, List.mem_cons, List.mem_singleton, List.not_mem_nil,
      or_false] at h
    rcases h with (((h | h) | h) | h) | h
    · exact absurd (hh1 _ h) (by simp [Call.isCapture])
    · exact absurd (hh2 _ h) (by simp [Call.isCapture])
    · rcases h with h | h <;> cases h
    · exact (t3 q i x h).2
    · cases h
  · intro h
    rw [hnew]
    simp only [List.mem_append]
    exact Or.inl (Or.inr (e1 h))
  · intro h
    rw [hnew]
    simp only [List.mem_append]
    exact Or.inl (Or.inr (e2 h))
  · intro h
    rw [hnew]
    simp only [List.mem_append]
    exact Or.inl (Or.inr (e3 h))

/-- A tracepoint invocation (`tp_btf_fn`) under the all-features configuration: one
random draw, and the id `0xDEADBEEF12345678` in the record and in the `lbr` tag. -/
theorem emit_session_id_once_witness :
    ∃ s2 rec, tp_btf_fn fullEnv demoKernel (bootState 1) 5 = some (BPF_OK, s2) ∧
      rec.session_id = 0xDEADBEEF12345678 ∧
      (s2.trace.drop (bootState 1).trace.length).count Call.get_prandom_u32 = 1 ∧
      Call.output_lbr_data 1 0xDEADBEEF12345678 ∈ s2.trace.drop (bootState 1).trace.length ∧
      Call.ringbuf_output rec (event_sz fullEnv) ∈
        s2.trace.drop (bootState 1).trace.length := by
  obtain ⟨s2, rec, he, ht, _, hs, hc, _, _, _, _, hl, _, _⟩ :=
    emit_session_id_once fullEnv demoKernel (bootState 1) 5
      (some (List.replicate fullEnv.lay.MAX_FN_ARGS 0)) true (by decide) (by decide)
  have hsid : sid_of demoKernel = 0xDEADBEEF12345678 := by decide
  refine ⟨s2, rec, he,
    by rw [hs ⟨fun _ _ _ _ => rfl, fun _ _ _ _ _ => rfl⟩, hsid], hc, ?_, ?_⟩
  · have h := hl rfl
    rw [hsid] at h
    exact h
  · rw [ht]
    simp

theorem session_id_of_eq (fp rnd : Nat) :
    session_id_of fp rnd = (rnd % 2 ^ 32) * 2 ^ 32 + fp % 2 ^ 32 := by
  unfold session_id_of U32 U64
  have hr : rnd % 2 ^ 32 < 2 ^ 32 := Nat.mod_lt _ (by norm_num)
  have hf : fp % 2 ^ 32 < 2 ^ 32 := Nat.mod_lt _ (by norm_num)
  have hmask : (0xFFFFFFFF : Nat) = 2 ^ 32 - 1 := by norm_num
  rw [hmask, Nat.and_pow_two_sub_one_eq_mod, Nat.shiftLeft_eq]
  have h1 : rnd % 2 ^ 32 * 2 ^ 32 < 2 ^ 64 := by omega
  rw [Nat.mod_eq_of_lt h1, Nat.mul_comm, ← Nat.mul_add_lt_is_or hf]
  apply Nat.mod_eq_of_lt
  omega

/-- C3: when both frame reads succeed, `get_tracee_caller_fp` returns the value `fp` found
by dereferencing `r10` twice, and for a 64-bit `fp` and a 32-bit random draw the id
returned by `gen_session_id` has the draw as its high 32 bits and the low 32 bits of `fp`
as its low 32 bits. Any other call with the same frame-chain result and the same draw
returns the same id. -/
theorem gen_session_id_bits (K : Kernel) (s : State) (a fp : Nat)
    (h1 : K.probe_read_kernel (K.r10 % U64) = some a)
    (h2 : K.probe_read_kernel (a % U64) = some fp)
    (hfp : fp < U64) (hr : K.prandom_u32 < U32) :
    (get_tracee_caller_fp K s).1 = fp ∧
    (gen_session_id K s).1 / 2 ^ 32 = K.prandom_u32 ∧
    (gen_session_id K s).1 % 2 ^ 32 = fp % 2 ^ 32 ∧
    ∀ (K2 : Kernel) (s2 : State),
      (get_tracee_caller_fp K2 s2).1 = fp → K2.prandom_u32 = K.prandom_u32 →
      (gen_session_id K2 s2).1 = (gen_session_id K s).1 := by
  have hfp1 : (get_tracee_caller_fp K s).1 = fp := by
    simp [get_tracee_caller_fp, probe_read, h1, h2, Nat.mod_eq_of_lt hfp]
  have hr1 : K.prandom_u32 % 2 ^ 32 = K.prandom_u32 := Nat.mod_eq_of_lt hr
  have hid : ∀ (K2 : Kernel) (s2 : State), (gen_session_id K2 s2).1 =
      (K2.prandom_u32 % 2 ^ 32) * 2 ^ 32 + (get_tracee_caller_fp K2 s2).1 % 2 ^ 32 := by
    intro K2 s2
    simp [gen_session_id, session_id_of_eq, U32]
  refine ⟨hfp1, ?_, ?_, ?_⟩
  · rw [hid, hfp1, hr1]; omega
  · rw [hid, hfp1, hr1]; omega
  · intro K2 s2 e1 e2
    rw [hid, hid, e1, e2, hfp1]

/-- The frame chain `1000 -> 2000 -> 0xFFFF888812345678` with the draw `0xDEADBEEF` gives
the id `0xDEADBEEF12345678`. -/
theorem gen_session_id_bits_witness :
    (get_tracee_caller_fp demoKernel (bootState 1)).1 = 0xFFFF888812345678 ∧
    (gen_session_id demoKernel (bootState 1)).1 / 2 ^ 32 = 0xDEADBEEF ∧
    (gen_session_id demoKernel (bootState 1)).1 % 2 ^ 32 = 0x12345678 ∧
    (gen_session_id demoKernel (bootState 1)).1 = 0xDEADBEEF12345678 :=
  have h := gen_session_id_bits demoKernel (bootState 1) 2000 0xFFFF888812345678
    (by decide) (by decide) (by decide) (by decide)
  ⟨h.1, h.2.1, h.2.2.1, by decide⟩

end Btrace
